import Mathlib

/-!
Formal model of the billiards simulation core in `game_cpp/game.cpp`.

Float arithmetic of the source is idealised over the real numbers; every
numeric literal of the source is taken at its exact decimal value.  Heap
mutation is modelled by explicit state passing: the slot array
`Table::billBalls` becomes a function `Fin 7 → Option BillBall`, and the
calls to the presentation collaborator `Scene::destroyMesh` are recorded as
a list of destroyed mesh handles.
-/

noncomputable section

open Classical

/-- Basic 2D vector class of the source (`Vector2`). -/
structure Vector2 where
  x : ℝ
  y : ℝ

/-- Source function `normalizedVector`: divides both components by the
Euclidean length `sqrt (x*x + y*y)`. -/
def normalizedVector (v : Vector2) : Vector2 :=
  let vectorLength := Real.sqrt (v.x * v.x + v.y * v.y)
  Vector2.mk (v.x / vectorLength) (v.y / vectorLength)

namespace Params

namespace Table

/-- Table width constant (15). -/
def width : ℝ := 15

/-- Table height constant (8). -/
def height : ℝ := 8

/-- Pocket capture radius constant (0.4). -/
def pocketRadius : ℝ := 0.4

/-- Array `pocketsPositions` of the six pocket centers, in source order. -/
def pocketsPositions : Fin 6 → Vector2 := fun j =>
  if j = 0 then Vector2.mk (-0.5 * width) (-0.5 * height)
  else if j = 1 then Vector2.mk 0 (-0.5 * height)
  else if j = 2 then Vector2.mk (0.5 * width) (-0.5 * height)
  else if j = 3 then Vector2.mk (-0.5 * width) (0.5 * height)
  else if j = 4 then Vector2.mk 0 (0.5 * height)
  else Vector2.mk (0.5 * width) (0.5 * height)

/-- Array `ballsPositions` of the seven initial ball positions, in source
order (slot 0 is the player ball). -/
def ballsPositions : Fin 7 → Vector2 := fun i =>
  if i = 0 then Vector2.mk (-0.3 * width) 0
  else if i = 1 then Vector2.mk (0.2 * width) 0
  else if i = 2 then Vector2.mk (0.25 * width) (0.05 * height)
  else if i = 3 then Vector2.mk (0.25 * width) (-0.05 * height)
  else if i = 4 then Vector2.mk (0.3 * width) (0.1 * height)
  else if i = 5 then Vector2.mk (0.3 * width) 0
  else Vector2.mk (0.3 * width) (-0.1 * height)

end Table

namespace Physics

/-- Per-frame friction deceleration constant (0.003). -/
def frictionDeceleration : ℝ := 0.003

/-- Strike power constant (1). -/
def strikePower : ℝ := 1

end Physics

namespace Ball

/-- Ball radius constant (0.3). -/
def radius : ℝ := 0.3

end Ball

namespace Shot

/-- Shot charge time constant (1). -/
def chargeTime : ℝ := 1

end Shot

end Params

/-- Ball entity of the source (`BillBall`): position, speed, and the opaque
mesh pointer `gameMesh`, modelled as a numeric handle. -/
structure BillBall where
  position : Vector2
  speed : Vector2
  gameMesh : ℕ

/-- Source method `BillBall::getNextPosition`: returns `position + speed`;
the `dt` argument is accepted but unused. -/
def BillBall.getNextPosition (b : BillBall) (dt : ℝ) : Vector2 :=
  Vector2.mk (b.position.x + b.speed.x) (b.position.y + b.speed.y)

/-- Source method `BillBall::strike`: normalizes the direction and adds
`direction * power` to the current speed. -/
def BillBall.strike (b : BillBall) (direction : Vector2) (power : ℝ) : BillBall :=
  let d := normalizedVector direction
  { b with speed := Vector2.mk (b.speed.x + d.x * power) (b.speed.y + d.y * power) }

namespace PhysicEvents

/-- Source function `PhysicEvents::vectorProjecction` (sic): the projection
of `a` onto the direction of `b`, computed as `normalizedVector b` scaled by
`dot a b / |b|`. -/
def vectorProjecction (a b : Vector2) : Vector2 :=
  let pr := (a.x * b.x + a.y * b.y) / Real.sqrt (b.x * b.x + b.y * b.y)
  let t := normalizedVector b
  Vector2.mk (t.x * pr) (t.y * pr)

/-- Source function `PhysicEvents::ricochet`.  The four edge branches run in
sequence on the same ball object; the locals `x`, `y` hold the position read
at entry, and each branch that fires writes a position built from those
stale locals (only the second and fourth branch conditions re-read the
current position). -/
def ricochet (curBall : BillBall) : BillBall :=
  let x := curBall.position.x
  let y := curBall.position.y
  let b1 :=
    if x + Params.Ball.radius > 0.5 * Params.Table.width then
      let difference := x + Params.Ball.radius - 0.5 * Params.Table.width
      { curBall with position := Vector2.mk (x - difference * 2) y,
                     speed := Vector2.mk (-curBall.speed.x) curBall.speed.y }
    else curBall
  let b2 :=
    if b1.position.x - Params.Ball.radius < -0.5 * Params.Table.width then
      let difference := -0.5 * Params.Table.width - x + Params.Ball.radius
      { b1 with position := Vector2.mk (x + difference * 2) y,
                speed := Vector2.mk (-b1.speed.x) b1.speed.y }
    else b1
  let b3 :=
    if b2.position.y + Params.Ball.radius > 0.5 * Params.Table.height then
      let difference := y + Params.Ball.radius - 0.5 * Params.Table.height
      { b2 with position := Vector2.mk x (y - difference * 2),
                speed := Vector2.mk b2.speed.x (-b2.speed.y) }
    else b2
  let b4 :=
    if b3.position.y - Params.Ball.radius < -0.5 * Params.Table.height then
      let difference := -0.5 * Params.Table.height - y + Params.Ball.radius
      { b3 with position := Vector2.mk x (y + difference * 2),
                speed := Vector2.mk b3.speed.x (-b3.speed.y) }
    else b3
  b4

/-- Source function `PhysicEvents::collide`: projects both speeds onto the
guide vector between the centers and exchanges the projected components. -/
def collide (ball1 ball2 : BillBall) : BillBall × BillBall :=
  let x1 := ball1.position.x
  let x2 := ball2.position.x
  let y1 := ball1.position.y
  let y2 := ball2.position.y
  let guideVector := Vector2.mk (x2 - x1) (y2 - y1)
  let g1 := vectorProjecction ball1.speed guideVector
  let g2 := vectorProjecction ball2.speed guideVector
  let newSpeed1 := Vector2.mk (ball1.speed.x - g1.x + g2.x) (ball1.speed.y - g1.y + g2.y)
  let newSpeed2 := Vector2.mk (ball2.speed.x + g1.x - g2.x) (ball2.speed.y + g1.y - g2.y)
  ({ ball1 with speed := newSpeed1 }, { ball2 with speed := newSpeed2 })

end PhysicEvents

namespace Game

/-- Source function `Game::distance`: Euclidean distance between points. -/
def distance (v1 v2 : Vector2) : ℝ :=
  Real.sqrt ((v1.x - v2.x) * (v1.x - v2.x) + (v1.y - v2.y) * (v1.y - v2.y))

/-- Slot array `Table::billBalls`: a slot holds either a live ball or the
empty marker (NULL in the source). -/
abbrev Slots := Fin 7 → Option BillBall

/-- Source function `Game::score`: destroys the mesh of the ball in the slot
and clears the slot.  A call with an already-cleared slot would dereference
a null pointer in the source; that branch is unreachable because no point is
within `pocketRadius` of two distinct pockets (see `pocket_match_unique`),
and is modelled as emitting no event. -/
def score (balls : Slots) (ballIndex : Fin 7) : Slots × List ℕ :=
  (fun j => if j = ballIndex then none else balls j,
   match balls ballIndex with
   | some b => [b.gameMesh]
   | none => [])

/-- Whole-game state: the slot array plus the charge state of the shot. -/
structure GameState where
  balls : Slots
  isChargingShot : Bool
  shotChargeProgress : ℝ

/-- Body of the pocket-test inner loop of `Game::update` (lines 336 to 344):
on a match, mark scored and call `score`, accumulating destroy events. -/
def pocketCheck (positionToMove : Vector2) (i : Fin 7)
    (acc : Bool × Slots × List ℕ) (j : Fin 6) : Bool × Slots × List ℕ :=
  if distance positionToMove (Params.Table.pocketsPositions j) < Params.Table.pocketRadius then
    let sc := score acc.2.1 i
    (true, sc.1, acc.2.2 ++ sc.2)
  else acc

/-- Pocket-test inner loop of `Game::update`: probes all six pockets in
order without early exit. -/
def pocketLoop (positionToMove : Vector2) (i : Fin 7) (balls : Slots) :
    Bool × Slots × List ℕ :=
  [(0 : Fin 6), 1, 2, 3, 4, 5].foldl (pocketCheck positionToMove i) (false, balls, [])

/-- Friction fragment of `Game::update` (lines 348 to 361), as a map on the
speed vector: below the snap threshold the speed is zeroed, otherwise
`frictionDeceleration` is subtracted along the speed direction. -/
def frictionStep (v : Vector2) : Vector2 :=
  if v.x ≠ 0 ∨ v.y ≠ 0 then
    if v.x * v.x + v.y * v.y ≤
        Params.Physics.frictionDeceleration * Params.Physics.frictionDeceleration * 1.1 then
      Vector2.mk 0 0
    else
      let deceleration := normalizedVector v
      Vector2.mk (v.x + -deceleration.x * Params.Physics.frictionDeceleration)
                 (v.y + -deceleration.y * Params.Physics.frictionDeceleration)
  else v

/-- Boundary fragment of `Game::update` (lines 363 to 371): when the
predicted position leaves the table on any edge, commit it, run `ricochet`,
and re-read the corrected position. -/
def boundaryStep (b : BillBall) (positionToMove : Vector2) : BillBall × Vector2 :=
  if positionToMove.x + Params.Ball.radius > 0.5 * Params.Table.width ∨
     positionToMove.x - Params.Ball.radius < -0.5 * Params.Table.width ∨
     positionToMove.y + Params.Ball.radius > 0.5 * Params.Table.height ∨
     positionToMove.y - Params.Ball.radius < -0.5 * Params.Table.height then
    let b' := PhysicEvents.ricochet { b with position := positionToMove }
    (b', b'.position)
  else (b, positionToMove)

/-- Body of the pairwise-collision inner loop of `Game::update` (lines 373
to 381): on contact, reset the position to move to the current committed
position of the ball and run `collide` against the partner slot. -/
def collisionCheck (i : Fin 7) (acc : BillBall × Vector2 × Slots) (l : Fin 7) :
    BillBall × Vector2 × Slots :=
  if l ≠ i then
    match acc.2.2 l with
    | some other =>
      if distance acc.2.1 other.position ≤ 2 * Params.Ball.radius then
        let positionToMove := acc.1.position
        let c := PhysicEvents.collide acc.1 other
        (c.1, positionToMove, fun j => if j = l then some c.2 else acc.2.2 j)
      else acc
    | none => acc
  else acc

/-- Pairwise-collision inner loop of `Game::update`: partners are the slots
with strictly greater index, in ascending order. -/
def collisionLoop (i : Fin 7) (b : BillBall) (positionToMove : Vector2) (balls : Slots) :
    BillBall × Vector2 × Slots :=
  (([(0 : Fin 7), 1, 2, 3, 4, 5, 6]).drop (i.val + 1)).foldl
    (collisionCheck i) (b, positionToMove, balls)

/-- One iteration of the per-ball loop of `Game::update` (lines 328 to 388):
skip empty slots; predict the next position; probe pockets; when not scored,
apply friction, the boundary test, the collision loop, and commit. -/
def ballStep (dt : ℝ) (acc : Slots × List ℕ) (i : Fin 7) : Slots × List ℕ :=
  match acc.1 i with
  | none => acc
  | some curBall =>
    let positionToMove := curBall.getNextPosition dt
    let pk := pocketLoop positionToMove i acc.1
    if pk.1 then (pk.2.1, acc.2 ++ pk.2.2)
    else
      let b1 : BillBall := { curBall with speed := frictionStep curBall.speed }
      let bd := boundaryStep b1 positionToMove
      let cl := collisionLoop i bd.1 bd.2 pk.2.1
      let committed : BillBall := { cl.1 with position := cl.2.1 }
      ((fun j => if j = i then some committed else cl.2.2 j), acc.2 ++ pk.2.2)

/-- Source function `Game::update`: advance the charge progress, then run
the per-ball loop over all seven slots in ascending order.  Returns the new
state together with the list of destroyed mesh handles. -/
def update (dt : ℝ) (s : GameState) : GameState × List ℕ :=
  let shotChargeProgress :=
    if s.isChargingShot then min (s.shotChargeProgress + dt / Params.Shot.chargeTime) 1
    else s.shotChargeProgress
  let r := [(0 : Fin 7), 1, 2, 3, 4, 5, 6].foldl (ballStep dt) (s.balls, [])
  ({ balls := r.1, isChargingShot := s.isChargingShot,
     shotChargeProgress := shotChargeProgress }, r.2)

/-- Source function `Game::mouseButtonPressed`: only raises the charging
flag; the click coordinates are unused. -/
def mouseButtonPressed (x y : ℝ) (s : GameState) : GameState :=
  { s with isChargingShot := true }

/-- Source function `Game::mouseButtonReleased`: strikes the cue ball
(`table.ballToHit`, the slot-0 object) toward the release point with power
`shotChargeProgress * strikePower`, then resets the charge state.  When slot
0 was cleared by a capture, the source still strikes the orphaned heap
object, which is no longer reachable from the table; this has no observable
effect on the game state and is modelled as the identity on the slots. -/
def mouseButtonReleased (x y : ℝ) (s : GameState) : GameState :=
  let balls : Slots :=
    match s.balls 0 with
    | some cue =>
      let direction := Vector2.mk (x - cue.position.x) (y - cue.position.y)
      fun j =>
        if j = (0 : Fin 7) then
          some (cue.strike direction (s.shotChargeProgress * Params.Physics.strikePower))
        else s.balls j
    | none => s.balls
  { balls := balls, isChargingShot := false, shotChargeProgress := 0 }

/-- Initial state built by `Table::init`: every slot holds a ball at its
layout position with zero speed; mesh handles are the slot indices. -/
def initState : GameState :=
  { balls := fun i => some { position := Params.Table.ballsPositions i
                             speed := Vector2.mk 0 0
                             gameMesh := i.val },
    isChargingShot := false,
    shotChargeProgress := 0 }

/-- External calls the host can make on the game, for whole-session
statements: one frame, press, release. -/
inductive Ev where
  | update (dt : ℝ)
  | press (x y : ℝ)
  | release (x y : ℝ)

/-- One external call applied to the state. -/
def stepEv (s : GameState) (e : Ev) : GameState :=
  match e with
  | Ev.update dt => (update dt s).1
  | Ev.press x y => mouseButtonPressed x y s
  | Ev.release x y => mouseButtonReleased x y s

/-- Frame-time arguments are elapsed times, hence nonnegative. -/
def evDtNonneg : Ev → Prop := fun e =>
  match e with
  | Ev.update dt => 0 ≤ dt
  | _ => True

end Game

/-! ## Helper lemmas -/

/-- Distance comparison against a positive bound, read off the squares. -/
lemma distance_lt_iff (p q : Vector2) (c : ℝ) (hc : 0 < c) :
    Game.distance p q < c ↔
      (p.x - q.x) * (p.x - q.x) + (p.y - q.y) * (p.y - q.y) < c ^ 2 :=
  Real.sqrt_lt' hc

/-- Distance comparison against a nonnegative bound, read off the squares. -/
lemma distance_le_iff (p q : Vector2) (c : ℝ) (hc : 0 ≤ c) :
    Game.distance p q ≤ c ↔
      (p.x - q.x) * (p.x - q.x) + (p.y - q.y) * (p.y - q.y) ≤ c ^ 2 :=
  Real.sqrt_le_left hc

/-- A fold whose body fixes the accumulator is the identity. -/
lemma foldl_fixed_of_forall {α β : Type} (f : α → β → α) (l : List β) (a : α)
    (h : ∀ b ∈ l, f a b = a) : l.foldl f a = a := by
  induction l with
  | nil => rfl
  | cons x xs ih =>
    rw [List.foldl_cons, h x (List.mem_cons_self x xs)]
    exact ih fun b hb => h b (List.mem_cons_of_mem x hb)

/-- Pocket loop with no matching pocket: nothing happens. -/
lemma pocketLoop_no_match (p : Vector2) (i : Fin 7) (balls : Game.Slots)
    (h : ∀ j : Fin 6,
      ¬ Game.distance p (Params.Table.pocketsPositions j) < Params.Table.pocketRadius) :
    Game.pocketLoop p i balls = (false, balls, []) := by
  unfold Game.pocketLoop
  refine foldl_fixed_of_forall _ _ _ fun j _ => ?_
  unfold Game.pocketCheck
  rw [if_neg (h j)]

/-- Collision loop with no partner in contact: nothing happens. -/
lemma collisionLoop_no_contact (i : Fin 7) (b : BillBall) (p : Vector2)
    (balls : Game.Slots)
    (h : ∀ l : Fin 7, l ≠ i → ∀ o : BillBall, balls l = some o →
      ¬ Game.distance p o.position ≤ 2 * Params.Ball.radius) :
    Game.collisionLoop i b p balls = (b, p, balls) := by
  unfold Game.collisionLoop
  refine foldl_fixed_of_forall _ _ _ fun l _ => ?_
  unfold Game.collisionCheck
  by_cases hl : l = i
  · rw [if_neg (by simpa using hl)]
  · rw [if_pos hl]
    cases hbl : balls l with
    | none => simp only [hbl]
    | some o => simp only [hbl, if_neg (h l hl o hbl)]

/-- A slot that is empty is skipped by the per-ball loop. -/
lemma ballStep_none (dt : ℝ) (acc : Game.Slots × List ℕ) (i : Fin 7)
    (h : acc.1 i = none) : Game.ballStep dt acc i = acc := by
  unfold Game.ballStep
  rw [h]

/-- Per-ball step of a live ball that matches no pocket, stays inside the
table, and touches no partner: friction applies and the predicted position
is committed. -/
lemma ballStep_clean (dt : ℝ) (slots : Game.Slots) (events : List ℕ) (i : Fin 7)
    (b : BillBall) (hb : slots i = some b)
    (hnp : ∀ j : Fin 6, ¬ Game.distance (b.getNextPosition dt)
      (Params.Table.pocketsPositions j) < Params.Table.pocketRadius)
    (hnb : ¬((b.getNextPosition dt).x + Params.Ball.radius > 0.5 * Params.Table.width ∨
       (b.getNextPosition dt).x - Params.Ball.radius < -0.5 * Params.Table.width ∨
       (b.getNextPosition dt).y + Params.Ball.radius > 0.5 * Params.Table.height ∨
       (b.getNextPosition dt).y - Params.Ball.radius < -0.5 * Params.Table.height))
    (hnc : ∀ l : Fin 7, l ≠ i → ∀ o : BillBall, slots l = some o →
      ¬ Game.distance (b.getNextPosition dt) o.position ≤ 2 * Params.Ball.radius) :
    Game.ballStep dt (slots, events) i =
      (fun j => if j = i then
          some ⟨b.getNextPosition dt, Game.frictionStep b.speed, b.gameMesh⟩
        else slots j, events) := by
  unfold Game.ballStep
  dsimp only
  rw [hb]
  dsimp only
  rw [pocketLoop_no_match _ _ _ hnp]
  unfold Game.boundaryStep
  rw [if_neg hnb]
  rw [collisionLoop_no_contact i _ _ _ hnc]
  simp

/-- Per-ball step of a live ball that matches no pocket but leaves the
table: friction applies, `ricochet` corrects the ball, and the corrected
position is committed. -/
lemma ballStep_boundary (dt : ℝ) (slots : Game.Slots) (events : List ℕ) (i : Fin 7)
    (b : BillBall) (hb : slots i = some b)
    (hnp : ∀ j : Fin 6, ¬ Game.distance (b.getNextPosition dt)
      (Params.Table.pocketsPositions j) < Params.Table.pocketRadius)
    (hbd : (b.getNextPosition dt).x + Params.Ball.radius > 0.5 * Params.Table.width ∨
       (b.getNextPosition dt).x - Params.Ball.radius < -0.5 * Params.Table.width ∨
       (b.getNextPosition dt).y + Params.Ball.radius > 0.5 * Params.Table.height ∨
       (b.getNextPosition dt).y - Params.Ball.radius < -0.5 * Params.Table.height)
    (hnc : ∀ l : Fin 7, l ≠ i → ∀ o : BillBall, slots l = some o →
      ¬ Game.distance
          (PhysicEvents.ricochet
            ⟨b.getNextPosition dt, Game.frictionStep b.speed, b.gameMesh⟩).position
          o.position ≤ 2 * Params.Ball.radius) :
    Game.ballStep dt (slots, events) i =
      (fun j => if j = i then
          some (PhysicEvents.ricochet
            ⟨b.getNextPosition dt, Game.frictionStep b.speed, b.gameMesh⟩)
        else slots j, events) := by
  unfold Game.ballStep
  dsimp only
  rw [hb]
  dsimp only
  rw [pocketLoop_no_match _ _ _ hnp]
  unfold Game.boundaryStep
  rw [if_pos hbd]
  rw [collisionLoop_no_contact i _ _ _ hnc]
  simp

/-- Ricochet off the right wall only, with a penetration depth that keeps
the mirrored ball inside the table: the x coordinate is mirrored back by
twice the depth and the x speed is negated. -/
lemma ricochet_x_high (b : BillBall)
    (h1 : b.position.x + Params.Ball.radius > 0.5 * Params.Table.width)
    (h2 : b.position.x + Params.Ball.radius - 0.5 * Params.Table.width ≤
      Params.Table.width - 2 * Params.Ball.radius)
    (h3 : b.position.y + Params.Ball.radius ≤ 0.5 * Params.Table.height)
    (h4 : b.position.y - Params.Ball.radius ≥ -0.5 * Params.Table.height) :
    PhysicEvents.ricochet b =
      ⟨Vector2.mk (b.position.x -
          (b.position.x + Params.Ball.radius - 0.5 * Params.Table.width) * 2) b.position.y,
       Vector2.mk (-b.speed.x) b.speed.y, b.gameMesh⟩ := by
  obtain ⟨⟨x, y⟩, ⟨sx, sy⟩, m⟩ := b
  simp only [Params.Table.width, Params.Table.height, Params.Ball.radius] at *
  unfold PhysicEvents.ricochet
  dsimp only
  split_ifs
  all_goals try rfl
  all_goals exfalso
  all_goals simp only [Params.Table.width, Params.Table.height, Params.Ball.radius] at *
  all_goals linarith

/-- Ricochet off the left wall only, with a penetration depth that keeps
the mirrored ball inside the table. -/
lemma ricochet_x_low (b : BillBall)
    (h1 : b.position.x - Params.Ball.radius < -0.5 * Params.Table.width)
    (h2 : -0.5 * Params.Table.width - b.position.x + Params.Ball.radius ≤
      Params.Table.width - 2 * Params.Ball.radius)
    (h3 : b.position.y + Params.Ball.radius ≤ 0.5 * Params.Table.height)
    (h4 : b.position.y - Params.Ball.radius ≥ -0.5 * Params.Table.height) :
    PhysicEvents.ricochet b =
      ⟨Vector2.mk (b.position.x +
          (-0.5 * Params.Table.width - b.position.x + Params.Ball.radius) * 2) b.position.y,
       Vector2.mk (-b.speed.x) b.speed.y, b.gameMesh⟩ := by
  obtain ⟨⟨x, y⟩, ⟨sx, sy⟩, m⟩ := b
  simp only [Params.Table.width, Params.Table.height, Params.Ball.radius] at *
  unfold PhysicEvents.ricochet
  dsimp only
  split_ifs
  all_goals try rfl
  all_goals exfalso
  all_goals simp only [Params.Table.width, Params.Table.height, Params.Ball.radius] at *
  all_goals linarith

/-- Ricochet off the top wall only, with a penetration depth that keeps the
mirrored ball inside the table. -/
lemma ricochet_y_high (b : BillBall)
    (h1 : b.position.y + Params.Ball.radius > 0.5 * Params.Table.height)
    (h2 : b.position.y + Params.Ball.radius - 0.5 * Params.Table.height ≤
      Params.Table.height - 2 * Params.Ball.radius)
    (h3 : b.position.x + Params.Ball.radius ≤ 0.5 * Params.Table.width)
    (h4 : b.position.x - Params.Ball.radius ≥ -0.5 * Params.Table.width) :
    PhysicEvents.ricochet b =
      ⟨Vector2.mk b.position.x (b.position.y -
          (b.position.y + Params.Ball.radius - 0.5 * Params.Table.height) * 2),
       Vector2.mk b.speed.x (-b.speed.y), b.gameMesh⟩ := by
  obtain ⟨⟨x, y⟩, ⟨sx, sy⟩, m⟩ := b
  simp only [Params.Table.width, Params.Table.height, Params.Ball.radius] at *
  unfold PhysicEvents.ricochet
  dsimp only
  split_ifs
  all_goals try rfl
  all_goals exfalso
  all_goals simp only [Params.Table.width, Params.Table.height, Params.Ball.radius] at *
  all_goals linarith

/-- Ricochet off the bottom wall only, with a penetration depth that keeps
the mirrored ball inside the table. -/
lemma ricochet_y_low (b : BillBall)
    (h1 : b.position.y - Params.Ball.radius < -0.5 * Params.Table.height)
    (h2 : -0.5 * Params.Table.height - b.position.y + Params.Ball.radius ≤
      Params.Table.height - 2 * Params.Ball.radius)
    (h3 : b.position.x + Params.Ball.radius ≤ 0.5 * Params.Table.width)
    (h4 : b.position.x - Params.Ball.radius ≥ -0.5 * Params.Table.width) :
    PhysicEvents.ricochet b =
      ⟨Vector2.mk b.position.x (b.position.y +
          (-0.5 * Params.Table.height - b.position.y + Params.Ball.radius) * 2),
       Vector2.mk b.speed.x (-b.speed.y), b.gameMesh⟩ := by
  obtain ⟨⟨x, y⟩, ⟨sx, sy⟩, m⟩ := b
  simp only [Params.Table.width, Params.Table.height, Params.Ball.radius] at *
  unfold PhysicEvents.ricochet
  dsimp only
  split_ifs
  all_goals try rfl
  all_goals exfalso
  all_goals simp only [Params.Table.width, Params.Table.height, Params.Ball.radius] at *
  all_goals linarith

/-- Ricochet at the top-right corner (out of bounds on both axes): both
speed components are negated, but the top-wall branch writes the position
from the stale local x, so the x mirror from the right-wall branch is
overwritten and only the y correction survives in the position. -/
lemma ricochet_corner_xy_high (b : BillBall)
    (h1 : b.position.x + Params.Ball.radius > 0.5 * Params.Table.width)
    (h2 : b.position.x + Params.Ball.radius - 0.5 * Params.Table.width ≤
      Params.Table.width - 2 * Params.Ball.radius)
    (h3 : b.position.y + Params.Ball.radius > 0.5 * Params.Table.height)
    (h4 : b.position.y + Params.Ball.radius - 0.5 * Params.Table.height ≤
      Params.Table.height - 2 * Params.Ball.radius) :
    PhysicEvents.ricochet b =
      ⟨Vector2.mk b.position.x (b.position.y -
          (b.position.y + Params.Ball.radius - 0.5 * Params.Table.height) * 2),
       Vector2.mk (-b.speed.x) (-b.speed.y), b.gameMesh⟩ := by
  obtain ⟨⟨x, y⟩, ⟨sx, sy⟩, m⟩ := b
  simp only [Params.Table.width, Params.Table.height, Params.Ball.radius] at *
  unfold PhysicEvents.ricochet
  dsimp only
  split_ifs
  all_goals try rfl
  all_goals exfalso
  all_goals simp only [Params.Table.width, Params.Table.height, Params.Ball.radius] at *
  all_goals linarith

/-- Ricochet at the bottom-right corner (out of bounds on both axes): both
speed components are negated, but the bottom-wall branch writes the
position from the stale local x, so the x mirror from the right-wall
branch is overwritten and only the y correction survives. -/
lemma ricochet_corner_xh_yl (b : BillBall)
    (h1 : b.position.x + Params.Ball.radius > 0.5 * Params.Table.width)
    (h2 : b.position.x + Params.Ball.radius - 0.5 * Params.Table.width ≤
      Params.Table.width - 2 * Params.Ball.radius)
    (h3 : b.position.y - Params.Ball.radius < -0.5 * Params.Table.height) :
    PhysicEvents.ricochet b =
      ⟨Vector2.mk b.position.x (b.position.y +
          (-0.5 * Params.Table.height - b.position.y + Params.Ball.radius) * 2),
       Vector2.mk (-b.speed.x) (-b.speed.y), b.gameMesh⟩ := by
  obtain ⟨⟨x, y⟩, ⟨sx, sy⟩, m⟩ := b
  simp only [Params.Table.width, Params.Table.height, Params.Ball.radius] at *
  unfold PhysicEvents.ricochet
  dsimp only
  split_ifs
  all_goals try rfl
  all_goals exfalso
  all_goals simp only [Params.Table.width, Params.Table.height, Params.Ball.radius] at *
  all_goals linarith

/-- Ricochet at the top-left corner (out of bounds on both axes): both
speed components are negated, but the top-wall branch writes the position
from the stale local x, so the x mirror from the left-wall branch is
overwritten and only the y correction survives. -/
lemma ricochet_corner_xl_yh (b : BillBall)
    (h1 : b.position.x - Params.Ball.radius < -0.5 * Params.Table.width)
    (h2 : b.position.y + Params.Ball.radius > 0.5 * Params.Table.height)
    (h3 : b.position.y + Params.Ball.radius - 0.5 * Params.Table.height ≤
      Params.Table.height - 2 * Params.Ball.radius) :
    PhysicEvents.ricochet b =
      ⟨Vector2.mk b.position.x (b.position.y -
          (b.position.y + Params.Ball.radius - 0.5 * Params.Table.height) * 2),
       Vector2.mk (-b.speed.x) (-b.speed.y), b.gameMesh⟩ := by
  obtain ⟨⟨x, y⟩, ⟨sx, sy⟩, m⟩ := b
  simp only [Params.Table.width, Params.Table.height, Params.Ball.radius] at *
  unfold PhysicEvents.ricochet
  dsimp only
  split_ifs
  all_goals try rfl
  all_goals exfalso
  all_goals simp only [Params.Table.width, Params.Table.height, Params.Ball.radius] at *
  all_goals linarith

/-- Ricochet at the bottom-left corner (out of bounds on both axes): both
speed components are negated, but the bottom-wall branch writes the
position from the stale local x, so the x mirror from the left-wall
branch is overwritten and only the y correction survives. -/
lemma ricochet_corner_xl_yl (b : BillBall)
    (h1 : b.position.x - Params.Ball.radius < -0.5 * Params.Table.width)
    (h2 : b.position.y - Params.Ball.radius < -0.5 * Params.Table.height) :
    PhysicEvents.ricochet b =
      ⟨Vector2.mk b.position.x (b.position.y +
          (-0.5 * Params.Table.height - b.position.y + Params.Ball.radius) * 2),
       Vector2.mk (-b.speed.x) (-b.speed.y), b.gameMesh⟩ := by
  obtain ⟨⟨x, y⟩, ⟨sx, sy⟩, m⟩ := b
  simp only [Params.Table.width, Params.Table.height, Params.Ball.radius] at *
  unfold PhysicEvents.ricochet
  dsimp only
  split_ifs
  all_goals try rfl
  all_goals exfalso
  all_goals simp only [Params.Table.width, Params.Table.height, Params.Ball.radius] at *
  all_goals linarith

/-- Ricochet on a ball whose extent is already inside all four walls is
the identity. -/
lemma ricochet_inside (b : BillBall)
    (h1 : ¬ b.position.x + Params.Ball.radius > 0.5 * Params.Table.width)
    (h2 : ¬ b.position.x - Params.Ball.radius < -0.5 * Params.Table.width)
    (h3 : ¬ b.position.y + Params.Ball.radius > 0.5 * Params.Table.height)
    (h4 : ¬ b.position.y - Params.Ball.radius < -0.5 * Params.Table.height) :
    PhysicEvents.ricochet b = b := by
  obtain ⟨⟨x, y⟩, ⟨sx, sy⟩, m⟩ := b
  push_neg at h1 h2 h3 h4
  simp only [Params.Table.width, Params.Table.height, Params.Ball.radius] at *
  unfold PhysicEvents.ricochet
  dsimp only
  split_ifs
  all_goals try rfl
  all_goals exfalso
  all_goals simp only [Params.Table.width, Params.Table.height, Params.Ball.radius] at *
  all_goals linarith

/-- Charge progress written by one frame of `Game::update`. -/
lemma update_progress (dt : ℝ) (s : Game.GameState) :
    ((Game.update dt s).1).shotChargeProgress =
      if s.isChargingShot then min (s.shotChargeProgress + dt / Params.Shot.chargeTime) 1
      else s.shotChargeProgress := rfl

/-- One external call keeps the charge progress inside the unit interval. -/
lemma stepEv_progress_bounds (s : Game.GameState) (e : Game.Ev)
    (h0 : 0 ≤ s.shotChargeProgress) (h1 : s.shotChargeProgress ≤ 1)
    (hdt : Game.evDtNonneg e) :
    0 ≤ (Game.stepEv s e).shotChargeProgress ∧
      (Game.stepEv s e).shotChargeProgress ≤ 1 := by
  cases e with
  | update dt =>
    have hdt' : (0 : ℝ) ≤ dt := hdt
    simp only [Game.stepEv, update_progress]
    by_cases hc : s.isChargingShot
    · rw [if_pos hc]
      constructor
      · refine le_min (add_nonneg h0 (div_nonneg hdt' ?_)) zero_le_one
        norm_num [Params.Shot.chargeTime]
      · exact min_le_right _ _
    · rw [if_neg hc]; exact ⟨h0, h1⟩
  | press x y => exact ⟨h0, h1⟩
  | release x y => exact ⟨le_refl 0, zero_le_one⟩

/-- Charge progress stays inside the unit interval along any event list. -/
lemma foldl_progress_bounds (evs : List Game.Ev) :
    ∀ s : Game.GameState, 0 ≤ s.shotChargeProgress → s.shotChargeProgress ≤ 1 →
      (∀ e ∈ evs, Game.evDtNonneg e) →
      0 ≤ (evs.foldl Game.stepEv s).shotChargeProgress ∧
        (evs.foldl Game.stepEv s).shotChargeProgress ≤ 1 := by
  induction evs with
  | nil => exact fun s h0 h1 _ => ⟨h0, h1⟩
  | cons e es ih =>
    intro s h0 h1 hall
    rw [List.foldl_cons]
    have hb := stepEv_progress_bounds s e h0 h1 (hall e (List.mem_cons_self e es))
    exact ih _ hb.1 hb.2 fun e' he' => hall e' (List.mem_cons_of_mem e he')

/-! ## Claims -/

/-- C8: for every ball and every `dt`, `getNextPosition dt` returns exactly
`position + velocity`, and the `dt` argument has no influence on the result.
The function is modelled as a pure map out of the ball, so it mutates
neither the position nor the speed by construction. -/
theorem c8_getNextPosition_pure (b : BillBall) (dt dt' : ℝ) :
    b.getNextPosition dt =
      Vector2.mk (b.position.x + b.speed.x) (b.position.y + b.speed.y) ∧
    b.getNextPosition dt = b.getNextPosition dt' :=
  ⟨rfl, rfl⟩

/-- C6: along every sequence of `update`, `mouseButtonPressed` and
`mouseButtonReleased` calls with nonnegative frame times, the charge
progress stays in the interval [0, 1], and every release call resets it to
exactly 0 whatever its value was. -/
theorem c6_chargeProgress_clamped (evs : List Game.Ev)
    (h : ∀ e ∈ evs, Game.evDtNonneg e) (s : Game.GameState) (x y : ℝ) :
    (0 ≤ (evs.foldl Game.stepEv Game.initState).shotChargeProgress ∧
      (evs.foldl Game.stepEv Game.initState).shotChargeProgress ≤ 1) ∧
    (Game.mouseButtonReleased x y s).shotChargeProgress = 0 := by
  refine ⟨foldl_progress_bounds evs Game.initState le_rfl zero_le_one h, rfl⟩

/-- Witness for C6 at a concrete event list and release call. -/
theorem c6_chargeProgress_clamped_witness :
    (∀ e ∈ [Game.Ev.press 0 0, Game.Ev.update 0.7, Game.Ev.update 0.8,
        Game.Ev.release 1 1], Game.evDtNonneg e) ∧
    ((0 ≤ ([Game.Ev.press 0 0, Game.Ev.update 0.7, Game.Ev.update 0.8,
          Game.Ev.release 1 1].foldl Game.stepEv Game.initState).shotChargeProgress ∧
        ([Game.Ev.press 0 0, Game.Ev.update 0.7, Game.Ev.update 0.8,
          Game.Ev.release 1 1].foldl Game.stepEv Game.initState).shotChargeProgress ≤ 1) ∧
      (Game.mouseButtonReleased 2 3 Game.initState).shotChargeProgress = 0) := by
  have hall : ∀ e ∈ [Game.Ev.press 0 0, Game.Ev.update 0.7, Game.Ev.update 0.8,
      Game.Ev.release 1 1], Game.evDtNonneg e := by
    intro e he
    simp only [List.mem_cons, List.not_mem_nil, or_false] at he
    rcases he with h | h | h | h <;> subst h <;> simp [Game.evDtNonneg] <;> norm_num
  exact ⟨hall, c6_chargeProgress_clamped _ hall Game.initState 2 3⟩

/-- Square roots of concrete perfect squares. -/
lemma sqrt_of_sq (a x : ℝ) (ha : 0 ≤ a) (h : x = a * a) : Real.sqrt x = a := by
  rw [h]; exact Real.sqrt_mul_self ha

/-- A sum of two self-products vanishes only when both factors vanish. -/
lemma mul_self_add_mul_self_ne_zero (a b : ℝ) (h : ¬(a = 0 ∧ b = 0)) :
    a * a + b * b ≠ 0 := by
  intro hz
  rcases (add_eq_zero_iff_of_nonneg (mul_self_nonneg a) (mul_self_nonneg b)).1 hz with ⟨ha, hb⟩
  exact h ⟨mul_self_eq_zero.1 ha, mul_self_eq_zero.1 hb⟩

/-- Closed form of the source projection: the two divisions by the length
collapse to one division by the squared length. -/
lemma vectorProjecction_closed (a b : Vector2)
    (hb : b.x * b.x + b.y * b.y ≠ 0) :
    PhysicEvents.vectorProjecction a b =
      Vector2.mk (b.x * ((a.x * b.x + a.y * b.y) / (b.x * b.x + b.y * b.y)))
                 (b.y * ((a.x * b.x + a.y * b.y) / (b.x * b.x + b.y * b.y))) := by
  have hL2 : 0 ≤ b.x * b.x + b.y * b.y :=
    add_nonneg (mul_self_nonneg _) (mul_self_nonneg _)
  have hs : Real.sqrt (b.x * b.x + b.y * b.y) * Real.sqrt (b.x * b.x + b.y * b.y) =
      b.x * b.x + b.y * b.y := Real.mul_self_sqrt hL2
  unfold PhysicEvents.vectorProjecction normalizedVector
  simp only
  congr 1
  · rw [div_mul_div_comm, hs, mul_div_assoc]
  · rw [div_mul_div_comm, hs, mul_div_assoc]

/-- C7: `strike` adds `normalizedVector direction * power` to the speed and
leaves the position unchanged, and in the concrete scenario — cue ball at
(-4.5, 0), charge progress 1, strike power 1, release point (0, 0) — the
speed change of the cue ball is exactly the vector (1, 0), of magnitude 1. -/
theorem c7_strike_additive_impulse (b : BillBall) (direction : Vector2) (power : ℝ)
    (hd : ¬(direction.x = 0 ∧ direction.y = 0))
    (cue : BillBall) (s : Game.GameState)
    (hcue : s.balls 0 = some cue)
    (hpos : cue.position = Vector2.mk (-4.5) 0)
    (hprog : s.shotChargeProgress = 1) :
    ((b.strike direction power).position = b.position ∧
      (b.strike direction power).speed =
        Vector2.mk (b.speed.x + (normalizedVector direction).x * power)
                   (b.speed.y + (normalizedVector direction).y * power)) ∧
    (Game.mouseButtonReleased 0 0 s).balls 0 =
      some { cue with speed := Vector2.mk (cue.speed.x + 1) (cue.speed.y + 0) } := by
  refine ⟨⟨rfl, rfl⟩, ?_⟩
  have hnorm : normalizedVector (Vector2.mk (0 - cue.position.x) (0 - cue.position.y)) =
      Vector2.mk 1 0 := by
    rw [hpos]
    unfold normalizedVector
    norm_num [show Real.sqrt 81 = 9 from sqrt_of_sq 9 81 (by norm_num) (by norm_num),
      show Real.sqrt 4 = 2 from sqrt_of_sq 2 4 (by norm_num) (by norm_num)]
  unfold Game.mouseButtonReleased
  simp only [hcue]
  rw [if_pos trivial]
  unfold BillBall.strike
  rw [hprog, hnorm]
  simp [Params.Physics.strikePower]

/-- Witness for C7 at a concrete ball, direction and state. -/
theorem c7_strike_additive_impulse_witness :
    (¬((1 : ℝ) = 0 ∧ (0 : ℝ) = 0)) ∧
    (let b : BillBall := ⟨Vector2.mk 2 3, Vector2.mk 4 5, 9⟩
     let cue : BillBall := ⟨Vector2.mk (-4.5) 0, Vector2.mk 0 0, 0⟩
     let s : Game.GameState :=
       ⟨fun j => if j = 0 then some cue else none, true, 1⟩
     ((b.strike (Vector2.mk 1 0) 2).position = b.position ∧
       (b.strike (Vector2.mk 1 0) 2).speed =
        Vector2.mk (b.speed.x + (normalizedVector (Vector2.mk 1 0)).x * 2)
                   (b.speed.y + (normalizedVector (Vector2.mk 1 0)).y * 2)) ∧
     (Game.mouseButtonReleased 0 0 s).balls 0 =
       some { cue with speed := Vector2.mk (cue.speed.x + 1) (cue.speed.y + 0) }) := by
  constructor
  · norm_num
  · exact c7_strike_additive_impulse _ (Vector2.mk 1 0) 2 (by norm_num)
      ⟨Vector2.mk (-4.5) 0, Vector2.mk 0 0, 0⟩ _ rfl rfl rfl

/-- Guide vector of a collision, from the first ball to the second, as
computed inside `PhysicEvents::collide`. -/
def guideOf (ball1 ball2 : BillBall) : Vector2 :=
  Vector2.mk (ball2.position.x - ball1.position.x) (ball2.position.y - ball1.position.y)

/-- C1: for two balls at distinct positions, `collide` leaves the vector
sum of the two speeds unchanged, exactly; equivalently the projections onto
the guide vector are exchanged while the components perpendicular to the
guide vector are untouched for both balls. -/
theorem c1_collide_conserves_momentum (ball1 ball2 : BillBall)
    (h : ¬(ball1.position.x = ball2.position.x ∧ ball1.position.y = ball2.position.y)) :
    ((PhysicEvents.collide ball1 ball2).1.speed.x +
        (PhysicEvents.collide ball1 ball2).2.speed.x =
          ball1.speed.x + ball2.speed.x ∧
      (PhysicEvents.collide ball1 ball2).1.speed.y +
        (PhysicEvents.collide ball1 ball2).2.speed.y =
          ball1.speed.y + ball2.speed.y) ∧
    (PhysicEvents.vectorProjecction (PhysicEvents.collide ball1 ball2).1.speed
        (guideOf ball1 ball2) =
      PhysicEvents.vectorProjecction ball2.speed (guideOf ball1 ball2) ∧
     PhysicEvents.vectorProjecction (PhysicEvents.collide ball1 ball2).2.speed
        (guideOf ball1 ball2) =
      PhysicEvents.vectorProjecction ball1.speed (guideOf ball1 ball2)) ∧
    ((PhysicEvents.collide ball1 ball2).1.speed.x -
        (PhysicEvents.vectorProjecction (PhysicEvents.collide ball1 ball2).1.speed
          (guideOf ball1 ball2)).x =
      ball1.speed.x - (PhysicEvents.vectorProjecction ball1.speed (guideOf ball1 ball2)).x ∧
     (PhysicEvents.collide ball1 ball2).1.speed.y -
        (PhysicEvents.vectorProjecction (PhysicEvents.collide ball1 ball2).1.speed
          (guideOf ball1 ball2)).y =
      ball1.speed.y - (PhysicEvents.vectorProjecction ball1.speed (guideOf ball1 ball2)).y ∧
     (PhysicEvents.collide ball1 ball2).2.speed.x -
        (PhysicEvents.vectorProjecction (PhysicEvents.collide ball1 ball2).2.speed
          (guideOf ball1 ball2)).x =
      ball2.speed.x - (PhysicEvents.vectorProjecction ball2.speed (guideOf ball1 ball2)).x ∧
     (PhysicEvents.collide ball1 ball2).2.speed.y -
        (PhysicEvents.vectorProjecction (PhysicEvents.collide ball1 ball2).2.speed
          (guideOf ball1 ball2)).y =
      ball2.speed.y - (PhysicEvents.vectorProjecction ball2.speed (guideOf ball1 ball2)).y) := by
  have hg : (guideOf ball1 ball2).x * (guideOf ball1 ball2).x +
      (guideOf ball1 ball2).y * (guideOf ball1 ball2).y ≠ 0 := by
    apply mul_self_add_mul_self_ne_zero
    rintro ⟨hx0, hy0⟩
    apply h
    unfold guideOf at hx0 hy0
    simp only at hx0 hy0
    constructor <;> linarith
  have hcol : PhysicEvents.collide ball1 ball2 =
      (⟨ball1.position,
        Vector2.mk
          (ball1.speed.x - (PhysicEvents.vectorProjecction ball1.speed (guideOf ball1 ball2)).x
            + (PhysicEvents.vectorProjecction ball2.speed (guideOf ball1 ball2)).x)
          (ball1.speed.y - (PhysicEvents.vectorProjecction ball1.speed (guideOf ball1 ball2)).y
            + (PhysicEvents.vectorProjecction ball2.speed (guideOf ball1 ball2)).y),
        ball1.gameMesh⟩,
       ⟨ball2.position,
        Vector2.mk
          (ball2.speed.x + (PhysicEvents.vectorProjecction ball1.speed (guideOf ball1 ball2)).x
            - (PhysicEvents.vectorProjecction ball2.speed (guideOf ball1 ball2)).x)
          (ball2.speed.y + (PhysicEvents.vectorProjecction ball1.speed (guideOf ball1 ball2)).y
            - (PhysicEvents.vectorProjecction ball2.speed (guideOf ball1 ball2)).y),
        ball2.gameMesh⟩) := rfl
  rw [hcol]
  set p1 := PhysicEvents.vectorProjecction ball1.speed (guideOf ball1 ball2) with hp1
  set p2 := PhysicEvents.vectorProjecction ball2.speed (guideOf ball1 ball2) with hp2
  have hex1 : PhysicEvents.vectorProjecction
      (Vector2.mk (ball1.speed.x - p1.x + p2.x) (ball1.speed.y - p1.y + p2.y))
      (guideOf ball1 ball2) = p2 := by
    rw [hp1, hp2]
    rw [vectorProjecction_closed ball1.speed _ hg, vectorProjecction_closed ball2.speed _ hg]
    rw [vectorProjecction_closed _ _ hg]
    dsimp only
    simp only [Vector2.mk.injEq]
    constructor <;> (field_simp; ring)
  have hex2 : PhysicEvents.vectorProjecction
      (Vector2.mk (ball2.speed.x + p1.x - p2.x) (ball2.speed.y + p1.y - p2.y))
      (guideOf ball1 ball2) = p1 := by
    rw [hp1, hp2]
    rw [vectorProjecction_closed ball1.speed _ hg, vectorProjecction_closed ball2.speed _ hg]
    rw [vectorProjecction_closed _ _ hg]
    dsimp only
    simp only [Vector2.mk.injEq]
    constructor <;> (field_simp; ring)
  dsimp only
  rw [hex1, hex2]
  exact ⟨⟨by ring, by ring⟩, ⟨rfl, rfl⟩, by ring, by ring, by ring, by ring⟩

/-- Witness for C1 at two concrete balls in contact. -/
theorem c1_collide_conserves_momentum_witness :
    (¬((0 : ℝ) = 1.5 ∧ (0 : ℝ) = 0)) ∧
    ((PhysicEvents.collide ⟨Vector2.mk 0 0, Vector2.mk 1 0, 0⟩
          ⟨Vector2.mk 1.5 0, Vector2.mk 0 0, 1⟩).1.speed.x +
        (PhysicEvents.collide ⟨Vector2.mk 0 0, Vector2.mk 1 0, 0⟩
          ⟨Vector2.mk 1.5 0, Vector2.mk 0 0, 1⟩).2.speed.x = 1 + 0) :=
  ⟨by norm_num,
    (c1_collide_conserves_momentum ⟨Vector2.mk 0 0, Vector2.mk 1 0, 0⟩
      ⟨Vector2.mk 1.5 0, Vector2.mk 0 0, 1⟩ (by norm_num)).1.1⟩

/-- Length of a vector, as the source computes it (`sqrt (x*x + y*y)`). -/
def vecLen (v : Vector2) : ℝ := Real.sqrt (v.x * v.x + v.y * v.y)

lemma vecLen_nonneg (v : Vector2) : 0 ≤ vecLen v := Real.sqrt_nonneg _

lemma vecLen_pos (v : Vector2) (hv : ¬(v.x = 0 ∧ v.y = 0)) : 0 < vecLen v :=
  Real.sqrt_pos.2 (lt_of_le_of_ne
    (add_nonneg (mul_self_nonneg _) (mul_self_nonneg _))
    (Ne.symm (mul_self_add_mul_self_ne_zero v.x v.y hv)))

lemma vecLen_mk_zero : vecLen (Vector2.mk 0 0) = 0 := by
  unfold vecLen
  norm_num

lemma vector2_eq (v : Vector2) (a b : ℝ) (hx : v.x = a) (hy : v.y = b) :
    v = Vector2.mk a b := by
  cases v
  simp_all

/-- Friction is the identity on a resting ball. -/
lemma frictionStep_zero : Game.frictionStep (Vector2.mk 0 0) = Vector2.mk 0 0 := by
  unfold Game.frictionStep
  rw [if_neg (by simp)]

/-- Friction snaps a slow ball to rest. -/
lemma frictionStep_snap (v : Vector2) (hv : ¬(v.x = 0 ∧ v.y = 0))
    (hsmall : v.x * v.x + v.y * v.y ≤
      Params.Physics.frictionDeceleration * Params.Physics.frictionDeceleration * 1.1) :
    Game.frictionStep v = Vector2.mk 0 0 := by
  unfold Game.frictionStep
  rw [if_pos (not_and_or.1 hv), if_pos hsmall]

/-- Above the snap threshold, friction rescales the speed vector by the
factor `1 - frictionDeceleration / length`. -/
lemma frictionStep_big (v : Vector2)
    (hbig : Params.Physics.frictionDeceleration * Params.Physics.frictionDeceleration * 1.1 <
      v.x * v.x + v.y * v.y) :
    Game.frictionStep v =
      Vector2.mk (v.x * (1 - Params.Physics.frictionDeceleration / vecLen v))
                 (v.y * (1 - Params.Physics.frictionDeceleration / vecLen v)) := by
  have hv : ¬(v.x = 0 ∧ v.y = 0) := by
    rintro ⟨hx, hy⟩
    rw [hx, hy] at hbig
    norm_num [Params.Physics.frictionDeceleration] at hbig
  have hL : 0 < vecLen v := vecLen_pos v hv
  unfold Game.frictionStep
  rw [if_pos (not_and_or.1 hv), if_neg (not_le.2 hbig)]
  unfold normalizedVector
  show Vector2.mk (v.x + -(v.x / vecLen v) * _) (v.y + -(v.y / vecLen v) * _) = _
  simp only [Vector2.mk.injEq]
  constructor <;> (field_simp; ring)

lemma vecLen_scale (v : Vector2) (c : ℝ) (hc : 0 ≤ c) :
    vecLen (Vector2.mk (v.x * c) (v.y * c)) = c * vecLen v := by
  unfold vecLen
  rw [show (v.x * c) * (v.x * c) + (v.y * c) * (v.y * c)
      = (c * c) * (v.x * v.x + v.y * v.y) by ring,
    Real.sqrt_mul (mul_self_nonneg c), Real.sqrt_mul_self hc]

/-- Above the snap threshold the friction deceleration is strictly below
the current speed magnitude. -/
lemma frictionDeceleration_lt_vecLen (v : Vector2)
    (hbig : Params.Physics.frictionDeceleration * Params.Physics.frictionDeceleration * 1.1 <
      v.x * v.x + v.y * v.y) :
    Params.Physics.frictionDeceleration < vecLen v := by
  have hfd : (0 : ℝ) < Params.Physics.frictionDeceleration := by
    norm_num [Params.Physics.frictionDeceleration]
  have h1 : Params.Physics.frictionDeceleration * Params.Physics.frictionDeceleration <
      v.x * v.x + v.y * v.y := by
    nlinarith
  exact (Real.lt_sqrt hfd.le).2 (by rw [pow_two]; exact h1)

/-- Above the snap threshold, one friction step shortens the speed by
exactly the friction deceleration. -/
lemma vecLen_frictionStep_big (v : Vector2)
    (hbig : Params.Physics.frictionDeceleration * Params.Physics.frictionDeceleration * 1.1 <
      v.x * v.x + v.y * v.y) :
    vecLen (Game.frictionStep v) = vecLen v - Params.Physics.frictionDeceleration := by
  have hv : ¬(v.x = 0 ∧ v.y = 0) := by
    rintro ⟨hx, hy⟩
    rw [hx, hy] at hbig
    norm_num [Params.Physics.frictionDeceleration] at hbig
  have hL : 0 < vecLen v := vecLen_pos v hv
  have hfdL := frictionDeceleration_lt_vecLen v hbig
  have hc : 0 ≤ 1 - Params.Physics.frictionDeceleration / vecLen v := by
    rw [sub_nonneg, div_le_one hL]
    exact hfdL.le
  rw [frictionStep_big v hbig, vecLen_scale v _ hc]
  field_simp

/-- Iterating friction from any speed reaches exact rest within
`ceil (length / frictionDeceleration) + 1` frames. -/
lemma frictionStep_iter_zero : ∀ k : ℕ, ∀ v : Vector2,
    Nat.ceil (vecLen v / Params.Physics.frictionDeceleration) ≤ k →
    Game.frictionStep^[k + 1] v = Vector2.mk 0 0 := by
  have hfd : (0 : ℝ) < Params.Physics.frictionDeceleration := by
    norm_num [Params.Physics.frictionDeceleration]
  intro k
  induction k with
  | zero =>
    intro v hv
    have hdiv : vecLen v / Params.Physics.frictionDeceleration ≤ 0 := by
      have := Nat.ceil_le.1 hv
      simpa using this
    have hL0 : vecLen v ≤ 0 := by
      have hrw : vecLen v = (vecLen v / Params.Physics.frictionDeceleration) *
          Params.Physics.frictionDeceleration := (div_mul_cancel₀ _ hfd.ne').symm
      nlinarith
    have hs0 : v.x * v.x + v.y * v.y ≤ 0 := Real.sqrt_eq_zero'.1
      (le_antisymm hL0 (vecLen_nonneg v))
    have hv0 : v = Vector2.mk 0 0 := by
      refine vector2_eq v 0 0 ?_ ?_ <;>
        nlinarith [mul_self_nonneg v.x, mul_self_nonneg v.y]
    rw [hv0]
    exact Function.iterate_fixed frictionStep_zero 1
  | succ k ih =>
    intro v hv
    by_cases hz : v.x = 0 ∧ v.y = 0
    · rw [vector2_eq v 0 0 hz.1 hz.2]
      exact Function.iterate_fixed frictionStep_zero _
    · by_cases hsmall : v.x * v.x + v.y * v.y ≤
          Params.Physics.frictionDeceleration * Params.Physics.frictionDeceleration * 1.1
      · rw [Function.iterate_succ_apply, frictionStep_snap v hz hsmall]
        exact Function.iterate_fixed frictionStep_zero _
      · push_neg at hsmall
        have hceil : Nat.ceil (vecLen (Game.frictionStep v) /
            Params.Physics.frictionDeceleration) ≤ k := by
          rw [vecLen_frictionStep_big v hsmall, Nat.ceil_le]
          have h1 : vecLen v / Params.Physics.frictionDeceleration ≤ ((k + 1 : ℕ) : ℝ) :=
            Nat.ceil_le.1 hv
          rw [sub_div, div_self hfd.ne']
          push_cast at h1 ⊢
          linarith
        rw [Function.iterate_succ_apply]
        exact ih (Game.frictionStep v) hceil

/-- C9: a release with no charge in progress (progress 0) still strikes the
cue ball, but with power `0 * strikePower = 0`, so the cue speed does not
change, provided the release point differs from the cue position. -/
theorem c9_release_uncharged_harmless (s : Game.GameState) (x y : ℝ) (cue : BillBall)
    (hcue : s.balls 0 = some cue)
    (hcharge : s.isChargingShot = false)
    (hprog : s.shotChargeProgress = 0)
    (hne : ¬(x = cue.position.x ∧ y = cue.position.y)) :
    (Game.mouseButtonReleased x y s).balls 0 =
      some (cue.strike (Vector2.mk (x - cue.position.x) (y - cue.position.y))
        (s.shotChargeProgress * Params.Physics.strikePower)) ∧
    cue.strike (Vector2.mk (x - cue.position.x) (y - cue.position.y))
        (s.shotChargeProgress * Params.Physics.strikePower) = cue := by
  constructor
  · unfold Game.mouseButtonReleased
    simp only [hcue]
    rw [if_pos trivial]
  · unfold BillBall.strike
    rw [hprog, zero_mul]
    cases cue with
    | mk pos sp mesh =>
      cases sp with
      | mk sx sy => simp

/-- Witness for C9 at a concrete state. -/
theorem c9_release_uncharged_harmless_witness :
    (let cue : BillBall := ⟨Vector2.mk (-4.5) 0, Vector2.mk 0 0, 0⟩
     let s : Game.GameState :=
       ⟨fun j => if j = 0 then some cue else none, false, 0⟩
     (Game.mouseButtonReleased 1 2 s).balls 0 =
       some (cue.strike (Vector2.mk (1 - cue.position.x) (2 - cue.position.y))
         (s.shotChargeProgress * Params.Physics.strikePower)) ∧
     cue.strike (Vector2.mk (1 - cue.position.x) (2 - cue.position.y))
         (s.shotChargeProgress * Params.Physics.strikePower) = cue) :=
  c9_release_uncharged_harmless _ 1 2 _ rfl rfl rfl (by norm_num)


/-- C3 counterexample: a ball out of bounds on both axes (top-right
corner away from the pocket).  The claim mandates that both position
mirrors take effect together, which would put the x coordinate at
`7.4 - (7.4 + radius - width/2) * 2 = 7.0`; the code leaves x at 7.4
because the top-wall branch rebuilds the position from the stale local x. -/
theorem c3_counterexample :
    PhysicEvents.ricochet ⟨Vector2.mk 7.4 3.9, Vector2.mk 1 1, 0⟩ =
      ⟨Vector2.mk 7.4 3.5, Vector2.mk (-1) (-1), 0⟩ ∧
    (7.4 : ℝ) ≠ 7.4 - (7.4 + Params.Ball.radius - 0.5 * Params.Table.width) * 2 := by
  constructor
  · rw [ricochet_corner_xy_high ⟨Vector2.mk 7.4 3.9, Vector2.mk 1 1, 0⟩ (by
        norm_num [Params.Table.width, Params.Ball.radius]) (by
        norm_num [Params.Table.width, Params.Ball.radius]) (by
        norm_num [Params.Table.height, Params.Ball.radius]) (by
        norm_num [Params.Table.height, Params.Ball.radius])]
    simp only [BillBall.mk.injEq, Vector2.mk.injEq]
    norm_num [Params.Table.height, Params.Ball.radius]
  · norm_num [Params.Table.width, Params.Ball.radius]

/-- C3 amended: for a ball out of bounds on exactly one axis, with a
penetration depth no larger than the table dimension minus the ball
diameter, `ricochet` mirrors that coordinate back by twice the depth and
negates the speed component along that axis; when the ball is out of
bounds on both axes — in any of the four corner configurations — both
speed components are negated and the y position correction applies, but
the x position mirror is overwritten by the top- or bottom-wall branch,
which writes back the stale x, so only the y position correction
survives. -/
theorem c3_ricochet_per_axis :
    (∀ b : BillBall,
      b.position.x + Params.Ball.radius > 0.5 * Params.Table.width →
      b.position.x + Params.Ball.radius - 0.5 * Params.Table.width ≤
        Params.Table.width - 2 * Params.Ball.radius →
      b.position.y + Params.Ball.radius ≤ 0.5 * Params.Table.height →
      b.position.y - Params.Ball.radius ≥ -0.5 * Params.Table.height →
      PhysicEvents.ricochet b =
        ⟨Vector2.mk (b.position.x -
            (b.position.x + Params.Ball.radius - 0.5 * Params.Table.width) * 2) b.position.y,
         Vector2.mk (-b.speed.x) b.speed.y, b.gameMesh⟩) ∧
    (∀ b : BillBall,
      b.position.x - Params.Ball.radius < -0.5 * Params.Table.width →
      -0.5 * Params.Table.width - b.position.x + Params.Ball.radius ≤
        Params.Table.width - 2 * Params.Ball.radius →
      b.position.y + Params.Ball.radius ≤ 0.5 * Params.Table.height →
      b.position.y - Params.Ball.radius ≥ -0.5 * Params.Table.height →
      PhysicEvents.ricochet b =
        ⟨Vector2.mk (b.position.x +
            (-0.5 * Params.Table.width - b.position.x + Params.Ball.radius) * 2) b.position.y,
         Vector2.mk (-b.speed.x) b.speed.y, b.gameMesh⟩) ∧
    (∀ b : BillBall,
      b.position.y + Params.Ball.radius > 0.5 * Params.Table.height →
      b.position.y + Params.Ball.radius - 0.5 * Params.Table.height ≤
        Params.Table.height - 2 * Params.Ball.radius →
      b.position.x + Params.Ball.radius ≤ 0.5 * Params.Table.width →
      b.position.x - Params.Ball.radius ≥ -0.5 * Params.Table.width →
      PhysicEvents.ricochet b =
        ⟨Vector2.mk b.position.x (b.position.y -
            (b.position.y + Params.Ball.radius - 0.5 * Params.Table.height) * 2),
         Vector2.mk b.speed.x (-b.speed.y), b.gameMesh⟩) ∧
    (∀ b : BillBall,
      b.position.y - Params.Ball.radius < -0.5 * Params.Table.height →
      -0.5 * Params.Table.height - b.position.y + Params.Ball.radius ≤
        Params.Table.height - 2 * Params.Ball.radius →
      b.position.x + Params.Ball.radius ≤ 0.5 * Params.Table.width →
      b.position.x - Params.Ball.radius ≥ -0.5 * Params.Table.width →
      PhysicEvents.ricochet b =
        ⟨Vector2.mk b.position.x (b.position.y +
            (-0.5 * Params.Table.height - b.position.y + Params.Ball.radius) * 2),
         Vector2.mk b.speed.x (-b.speed.y), b.gameMesh⟩) ∧
    (∀ b : BillBall,
      b.position.x + Params.Ball.radius > 0.5 * Params.Table.width →
      b.position.x + Params.Ball.radius - 0.5 * Params.Table.width ≤
        Params.Table.width - 2 * Params.Ball.radius →
      b.position.y + Params.Ball.radius > 0.5 * Params.Table.height →
      b.position.y + Params.Ball.radius - 0.5 * Params.Table.height ≤
        Params.Table.height - 2 * Params.Ball.radius →
      PhysicEvents.ricochet b =
        ⟨Vector2.mk b.position.x (b.position.y -
            (b.position.y + Params.Ball.radius - 0.5 * Params.Table.height) * 2),
         Vector2.mk (-b.speed.x) (-b.speed.y), b.gameMesh⟩) ∧
    (∀ b : BillBall,
      b.position.x + Params.Ball.radius > 0.5 * Params.Table.width →
      b.position.x + Params.Ball.radius - 0.5 * Params.Table.width ≤
        Params.Table.width - 2 * Params.Ball.radius →
      b.position.y - Params.Ball.radius < -0.5 * Params.Table.height →
      PhysicEvents.ricochet b =
        ⟨Vector2.mk b.position.x (b.position.y +
            (-0.5 * Params.Table.height - b.position.y + Params.Ball.radius) * 2),
         Vector2.mk (-b.speed.x) (-b.speed.y), b.gameMesh⟩) ∧
    (∀ b : BillBall,
      b.position.x - Params.Ball.radius < -0.5 * Params.Table.width →
      b.position.y + Params.Ball.radius > 0.5 * Params.Table.height →
      b.position.y + Params.Ball.radius - 0.5 * Params.Table.height ≤
        Params.Table.height - 2 * Params.Ball.radius →
      PhysicEvents.ricochet b =
        ⟨Vector2.mk b.position.x (b.position.y -
            (b.position.y + Params.Ball.radius - 0.5 * Params.Table.height) * 2),
         Vector2.mk (-b.speed.x) (-b.speed.y), b.gameMesh⟩) ∧
    (∀ b : BillBall,
      b.position.x - Params.Ball.radius < -0.5 * Params.Table.width →
      b.position.y - Params.Ball.radius < -0.5 * Params.Table.height →
      PhysicEvents.ricochet b =
        ⟨Vector2.mk b.position.x (b.position.y +
            (-0.5 * Params.Table.height - b.position.y + Params.Ball.radius) * 2),
         Vector2.mk (-b.speed.x) (-b.speed.y), b.gameMesh⟩) :=
  ⟨ricochet_x_high, ricochet_x_low, ricochet_y_high, ricochet_y_low,
    ricochet_corner_xy_high, ricochet_corner_xh_yl, ricochet_corner_xl_yh,
    ricochet_corner_xl_yl⟩

/-- Witness for the amended C3 at a concrete right-wall ricochet. -/
theorem c3_ricochet_per_axis_witness :
    ((7.3 : ℝ) + Params.Ball.radius > 0.5 * Params.Table.width) ∧
    PhysicEvents.ricochet ⟨Vector2.mk 7.3 0, Vector2.mk 2 3, 5⟩ =
      ⟨Vector2.mk (7.3 - (7.3 + Params.Ball.radius - 0.5 * Params.Table.width) * 2) 0,
       Vector2.mk (-2) 3, 5⟩ :=
  ⟨by norm_num [Params.Table.width, Params.Ball.radius],
   c3_ricochet_per_axis.1 ⟨Vector2.mk 7.3 0, Vector2.mk 2 3, 5⟩
     (by norm_num [Params.Table.width, Params.Ball.radius])
     (by norm_num [Params.Table.width, Params.Ball.radius])
     (by norm_num [Params.Table.height, Params.Ball.radius])
     (by norm_num [Params.Table.height, Params.Ball.radius])⟩

/-- Slot array with one live ball, in slot 0. -/
def singleSlots (b : BillBall) : Game.Slots := fun j => if j = 0 then some b else none

lemma mem_tail_ne_zero (i : Fin 7) (hi : i ∈ [(1 : Fin 7), 2, 3, 4, 5, 6]) : i ≠ 0 := by
  fin_cases hi <;> decide

lemma slot_write_zero (b res : BillBall) :
    (fun j => if j = (0 : Fin 7) then some res else singleSlots b j) = singleSlots res := by
  funext j
  by_cases h : j = 0 <;> simp [singleSlots, h]

lemma singleSlots_zero (b : BillBall) : singleSlots b 0 = some b := rfl

/-- Evaluation of `update` on a single-ball state, from the evaluation of
the slot-0 step: the remaining six iterations skip empty slots. -/
lemma update_single (dt : ℝ) (c : Bool) (pg : ℝ) (b res : BillBall)
    (h0 : Game.ballStep dt (singleSlots b, ([] : List ℕ)) 0 = (singleSlots res, [])) :
    (Game.update dt ⟨singleSlots b, c, pg⟩).1.balls = singleSlots res := by
  show ([(0 : Fin 7), 1, 2, 3, 4, 5, 6].foldl (Game.ballStep dt) (singleSlots b, [])).1
      = singleSlots res
  rw [List.foldl_cons, h0, foldl_fixed_of_forall _ _ _ fun i hi =>
    ballStep_none dt _ i (by simp [singleSlots, mem_tail_ne_zero i hi])]

/-- C2 counterexample: a single ball whose predicted position leaves the
table at the top-right corner region (but misses every pocket).  The
right-wall branch mirrors x, the top-wall branch then writes back the stale
x, so after the whole `update` the committed position still sticks out of
the right wall by 0.7, far beyond any floating tolerance. -/
theorem c2_counterexample :
    ((Game.update 1 ⟨singleSlots ⟨Vector2.mk 7 3.5, Vector2.mk 0.9 0.21, 0⟩,
        false, 0⟩).1.balls 0).map BillBall.position = some (Vector2.mk 7.9 3.69) ∧
    (7.9 : ℝ) + Params.Ball.radius > 0.5 * Params.Table.width := by
  constructor
  · have hb := ballStep_boundary 1
      (singleSlots ⟨Vector2.mk 7 3.5, Vector2.mk 0.9 0.21, 0⟩) [] 0
      ⟨Vector2.mk 7 3.5, Vector2.mk 0.9 0.21, 0⟩ (by simp [singleSlots])
      (by
        intro j
        rw [distance_lt_iff _ _ _ (by norm_num [Params.Table.pocketRadius])]
        fin_cases j <;>
          simp [BillBall.getNextPosition, Params.Table.pocketsPositions,
            Params.Table.pocketRadius, Params.Table.width, Params.Table.height] <;>
          norm_num)
      (Or.inl (by norm_num [BillBall.getNextPosition, Params.Ball.radius, Params.Table.width]))
      (by
        intro l hl o ho
        simp [singleSlots, hl] at ho)
    rw [slot_write_zero] at hb
    rw [update_single 1 false 0 _ _ hb]
    rw [ricochet_corner_xy_high _
      (by norm_num [BillBall.getNextPosition, Params.Ball.radius, Params.Table.width])
      (by norm_num [BillBall.getNextPosition, Params.Ball.radius, Params.Table.width])
      (by norm_num [BillBall.getNextPosition, Params.Ball.radius, Params.Table.height])
      (by norm_num [BillBall.getNextPosition, Params.Ball.radius, Params.Table.height])]
    simp only [singleSlots, if_pos rfl, Option.map_some]
    norm_num [BillBall.getNextPosition, Params.Ball.radius, Params.Table.height]
  · norm_num [Params.Ball.radius, Params.Table.width]


/-- Coordinatewise bounds from a distance bound. -/
lemma distance_coord_bounds (p q : Vector2) (c : ℝ) (h : Game.distance p q < c) :
    q.x - c < p.x ∧ p.x < q.x + c ∧ q.y - c < p.y ∧ p.y < q.y + c := by
  have hc : 0 < c := lt_of_le_of_lt (Real.sqrt_nonneg _) h
  have h2 : (p.x - q.x) * (p.x - q.x) + (p.y - q.y) * (p.y - q.y) < c ^ 2 :=
    (distance_lt_iff p q c hc).1 h
  refine ⟨?_, ?_, ?_, ?_⟩
  · nlinarith [mul_self_nonneg (p.x - q.x + c), mul_self_nonneg (p.y - q.y)]
  · nlinarith [mul_self_nonneg (p.x - q.x - c), mul_self_nonneg (p.y - q.y)]
  · nlinarith [mul_self_nonneg (p.y - q.y + c), mul_self_nonneg (p.x - q.x)]
  · nlinarith [mul_self_nonneg (p.y - q.y - c), mul_self_nonneg (p.x - q.x)]

/-- No point lies within `pocketRadius` of two distinct pockets: the
pockets are at least half the table width apart while the capture radius
is 0.4. -/
lemma pocket_match_unique (p : Vector2) (j k : Fin 6)
    (hj : Game.distance p (Params.Table.pocketsPositions j) < Params.Table.pocketRadius)
    (hk : Game.distance p (Params.Table.pocketsPositions k) < Params.Table.pocketRadius) :
    j = k := by
  have hbj := distance_coord_bounds p _ _ hj
  have hbk := distance_coord_bounds p _ _ hk
  fin_cases j <;> fin_cases k <;> first
    | rfl
    | (exfalso
       simp [Params.Table.pocketsPositions, Params.Table.pocketRadius,
         Params.Table.width, Params.Table.height] at hbj hbk
       obtain ⟨a1, a2, a3, a4⟩ := hbj
       obtain ⟨c1, c2, c3, c4⟩ := hbk
       linarith)

lemma pocketCheck_neg (p : Vector2) (i : Fin 7) (acc : Bool × Game.Slots × List ℕ)
    (j : Fin 6)
    (h : ¬ Game.distance p (Params.Table.pocketsPositions j) < Params.Table.pocketRadius) :
    Game.pocketCheck p i acc j = acc := by
  unfold Game.pocketCheck
  rw [if_neg h]

lemma pocketCheck_pos (p : Vector2) (i : Fin 7) (acc : Bool × Game.Slots × List ℕ)
    (j : Fin 6)
    (h : Game.distance p (Params.Table.pocketsPositions j) < Params.Table.pocketRadius) :
    Game.pocketCheck p i acc j =
      (true, (Game.score acc.2.1 i).1, acc.2.2 ++ (Game.score acc.2.1 i).2) := by
  unfold Game.pocketCheck
  rw [if_pos h]

/-- Pocket loop when some pocket matches: the ball is scored exactly once
(the other five probes miss by `pocket_match_unique`). -/
lemma pocketLoop_match (p : Vector2) (i : Fin 7) (balls : Game.Slots) (b : BillBall)
    (hb : balls i = some b) (j0 : Fin 6)
    (hj0 : Game.distance p (Params.Table.pocketsPositions j0) < Params.Table.pocketRadius) :
    Game.pocketLoop p i balls =
      (true, fun j => if j = i then none else balls j, [b.gameMesh]) := by
  have huniq : ∀ j : Fin 6, j ≠ j0 →
      ¬ Game.distance p (Params.Table.pocketsPositions j) < Params.Table.pocketRadius :=
    fun j hne hlt => hne (pocket_match_unique p j j0 hlt hj0)
  unfold Game.pocketLoop
  have hsc : (Game.score balls i).1 = (fun j => if j = i then none else balls j) := rfl
  have hsc2 : (Game.score balls i).2 = [b.gameMesh] := by
    unfold Game.score
    dsimp only
    rw [hb]
  have hscoredfix : ∀ j : Fin 6,
      Game.pocketCheck p i (true, fun j => if j = i then none else balls j, [b.gameMesh]) j
        = (true, fun j => if j = i then none else balls j, [b.gameMesh]) := by
    intro j
    unfold Game.pocketCheck
    by_cases h : Game.distance p (Params.Table.pocketsPositions j) < Params.Table.pocketRadius
    · rw [if_pos h]
      dsimp only
      have e1 : (Game.score (fun j => if j = i then none else balls j) i).1
          = (fun j => if j = i then none else balls j) := by
        funext k
        unfold Game.score
        dsimp only
        by_cases hk : k = i <;> simp [hk]
      have e2 : (Game.score (fun j => if j = i then none else balls j) i).2 = [] := by
        unfold Game.score
        dsimp only
        rw [if_pos rfl]
      rw [e1, e2, List.append_nil]
    · rw [if_neg h]
  fin_cases j0
  · simp only [List.foldl_cons, List.foldl_nil]
    rw [pocketCheck_pos _ _ _ (0 : Fin 6) (by exact hj0)]
    dsimp only
    simp only [hsc, hsc2, List.nil_append]
    rw [hscoredfix 1]
    rw [hscoredfix 2]
    rw [hscoredfix 3]
    rw [hscoredfix 4]
    rw [hscoredfix 5]
    try rfl
  · simp only [List.foldl_cons, List.foldl_nil]
    rw [pocketCheck_neg _ _ _ _ (huniq 0 (by decide))]
    rw [pocketCheck_pos _ _ _ (1 : Fin 6) (by exact hj0)]
    dsimp only
    simp only [hsc, hsc2, List.nil_append]
    rw [hscoredfix 2]
    rw [hscoredfix 3]
    rw [hscoredfix 4]
    rw [hscoredfix 5]
    try rfl
  · simp only [List.foldl_cons, List.foldl_nil]
    rw [pocketCheck_neg _ _ _ _ (huniq 0 (by decide))]
    rw [pocketCheck_neg _ _ _ _ (huniq 1 (by decide))]
    rw [pocketCheck_pos _ _ _ (2 : Fin 6) (by exact hj0)]
    dsimp only
    simp only [hsc, hsc2, List.nil_append]
    rw [hscoredfix 3]
    rw [hscoredfix 4]
    rw [hscoredfix 5]
    try rfl
  · simp only [List.foldl_cons, List.foldl_nil]
    rw [pocketCheck_neg _ _ _ _ (huniq 0 (by decide))]
    rw [pocketCheck_neg _ _ _ _ (huniq 1 (by decide))]
    rw [pocketCheck_neg _ _ _ _ (huniq 2 (by decide))]
    rw [pocketCheck_pos _ _ _ (3 : Fin 6) (by exact hj0)]
    dsimp only
    simp only [hsc, hsc2, List.nil_append]
    rw [hscoredfix 4]
    rw [hscoredfix 5]
    try rfl
  · simp only [List.foldl_cons, List.foldl_nil]
    rw [pocketCheck_neg _ _ _ _ (huniq 0 (by decide))]
    rw [pocketCheck_neg _ _ _ _ (huniq 1 (by decide))]
    rw [pocketCheck_neg _ _ _ _ (huniq 2 (by decide))]
    rw [pocketCheck_neg _ _ _ _ (huniq 3 (by decide))]
    rw [pocketCheck_pos _ _ _ (4 : Fin 6) (by exact hj0)]
    dsimp only
    simp only [hsc, hsc2, List.nil_append]
    rw [hscoredfix 5]
    try rfl
  · simp only [List.foldl_cons, List.foldl_nil]
    rw [pocketCheck_neg _ _ _ _ (huniq 0 (by decide))]
    rw [pocketCheck_neg _ _ _ _ (huniq 1 (by decide))]
    rw [pocketCheck_neg _ _ _ _ (huniq 2 (by decide))]
    rw [pocketCheck_neg _ _ _ _ (huniq 3 (by decide))]
    rw [pocketCheck_neg _ _ _ _ (huniq 4 (by decide))]
    rw [pocketCheck_pos _ _ _ (5 : Fin 6) (by exact hj0)]
    dsimp only
    simp only [hsc, hsc2, List.nil_append]
    try rfl

/-- A property preserved by the fold body holds at the end of the fold. -/
lemma foldl_invariant {α β : Type} (f : α → β → α) (P : α → Prop) (l : List β) (a : α)
    (ha : P a) (hf : ∀ x b, P x → P (f x b)) : P (l.foldl f a) := by
  induction l generalizing a with
  | nil => exact ha
  | cons b bs ih => exact ih _ (hf a b ha)

/-- A property preserved by the fold body on every list member holds at
the end of the fold. -/
lemma foldl_invariant_mem {α β : Type} (f : α → β → α) (P : α → Prop) (l : List β) :
    ∀ a : α, P a → (∀ x c, c ∈ l → P x → P (f x c)) → P (l.foldl f a) := by
  induction l with
  | nil => exact fun a ha _ => ha
  | cons c cs ih =>
    intro a ha hf
    rw [List.foldl_cons]
    exact ih _ (hf a c (List.mem_cons_self c cs) ha)
      (fun x d hd hx => hf x d (List.mem_cons_of_mem c hd) hx)

/-- The collision loop only redirects speeds: the current ball keeps its
position and mesh, the position to move ends as either its input value or
the current ball's position, and every partner slot keeps the position and
mesh it held before. -/
lemma collisionLoop_track (i : Fin 7) (b : BillBall) (p : Vector2) (balls : Game.Slots) :
    (Game.collisionLoop i b p balls).1.position = b.position ∧
    (Game.collisionLoop i b p balls).1.gameMesh = b.gameMesh ∧
    ((Game.collisionLoop i b p balls).2.1 = p ∨
      (Game.collisionLoop i b p balls).2.1 = b.position) ∧
    (∀ k o', (Game.collisionLoop i b p balls).2.2 k = some o' →
      ∃ o, balls k = some o ∧ o'.position = o.position ∧ o'.gameMesh = o.gameMesh) := by
  unfold Game.collisionLoop
  refine foldl_invariant (Game.collisionCheck i)
    (fun acc => acc.1.position = b.position ∧ acc.1.gameMesh = b.gameMesh ∧
      (acc.2.1 = p ∨ acc.2.1 = b.position) ∧
      ∀ k o', acc.2.2 k = some o' →
        ∃ o, balls k = some o ∧ o'.position = o.position ∧ o'.gameMesh = o.gameMesh)
    _ (b, p, balls) ⟨rfl, rfl, Or.inl rfl, fun k o' hk => ⟨o', hk, rfl, rfl⟩⟩ ?_
  rintro acc l ⟨h1, h2, h3, h4⟩
  unfold Game.collisionCheck
  by_cases hli : l = i
  · rw [if_neg (by simpa using hli)]
    exact ⟨h1, h2, h3, h4⟩
  · rw [if_pos hli]
    cases hsl : acc.2.2 l with
    | none => exact ⟨h1, h2, h3, h4⟩
    | some o =>
      dsimp only
      by_cases hd : Game.distance acc.2.1 o.position ≤ 2 * Params.Ball.radius
      · rw [if_pos hd]
        refine ⟨h1, h2, Or.inr h1, ?_⟩
        intro k o' hk
        dsimp only at hk
        by_cases hkl : k = l
        · rw [if_pos hkl] at hk
          obtain rfl := Option.some.inj hk
          subst hkl
          obtain ⟨o0, ho0, hop, hom⟩ := h4 k o hsl
          exact ⟨o0, ho0, hop, hom⟩
        · rw [if_neg hkl] at hk
          exact h4 k o' hk
      · rw [if_neg hd]
        exact ⟨h1, h2, h3, h4⟩

lemma ricochet_gameMesh (b : BillBall) :
    (PhysicEvents.ricochet b).gameMesh = b.gameMesh := by
  unfold PhysicEvents.ricochet
  dsimp only
  split_ifs <;> rfl

lemma boundaryStep_gameMesh (b : BillBall) (p : Vector2) :
    (Game.boundaryStep b p).1.gameMesh = b.gameMesh := by
  unfold Game.boundaryStep
  split_ifs
  · exact ricochet_gameMesh _
  · rfl

/-- Per-ball step of a live ball that matches a pocket: the slot is cleared
and exactly one destroy event for its mesh is appended. -/
lemma ballStep_scored (dt : ℝ) (slots : Game.Slots) (events : List ℕ) (i : Fin 7)
    (b : BillBall) (hb : slots i = some b) (j0 : Fin 6)
    (hj0 : Game.distance (b.getNextPosition dt) (Params.Table.pocketsPositions j0) <
      Params.Table.pocketRadius) :
    Game.ballStep dt (slots, events) i =
      (fun j => if j = i then none else slots j, events ++ [b.gameMesh]) := by
  unfold Game.ballStep
  dsimp only
  rw [hb]
  dsimp only
  rw [pocketLoop_match (b.getNextPosition dt) i slots b hb j0 hj0]
  dsimp only
  rw [if_pos rfl]

/-- Collisions never change which mesh a ball carries. -/
lemma collisionLoop_mesh (i : Fin 7) (b : BillBall) (p : Vector2) (balls : Game.Slots)
    (m : ℕ) (hb : b.gameMesh ≠ m)
    (hballs : ∀ k bb, balls k = some bb → bb.gameMesh ≠ m) :
    (Game.collisionLoop i b p balls).1.gameMesh ≠ m ∧
    (∀ k bb, (Game.collisionLoop i b p balls).2.2 k = some bb → bb.gameMesh ≠ m) := by
  unfold Game.collisionLoop
  refine foldl_invariant (Game.collisionCheck i)
    (fun acc => acc.1.gameMesh ≠ m ∧ ∀ k bb, acc.2.2 k = some bb → bb.gameMesh ≠ m)
    _ (b, p, balls) ⟨hb, hballs⟩ ?_
  rintro acc l ⟨h1, h2⟩
  unfold Game.collisionCheck
  by_cases hli : l = i
  · rw [if_neg (by simpa using hli)]
    exact ⟨h1, h2⟩
  · rw [if_pos hli]
    cases hsl : acc.2.2 l with
    | none => exact ⟨h1, h2⟩
    | some o =>
      dsimp only
      by_cases hd : Game.distance acc.2.1 o.position ≤ 2 * Params.Ball.radius
      · rw [if_pos hd]
        refine ⟨h1, ?_⟩
        intro k bb hk
        dsimp only at hk
        by_cases hkl : k = l
        · rw [if_pos hkl] at hk
          obtain rfl := Option.some.inj hk
          exact h2 l o hsl
        · rw [if_neg hkl] at hk
          exact h2 k bb hk
      · rw [if_neg hd]
        exact ⟨h1, h2⟩

lemma collisionLoop_preserves_none (i : Fin 7) (b : BillBall) (p : Vector2)
    (balls : Game.Slots) (k : Fin 7) (hk : balls k = none) :
    (Game.collisionLoop i b p balls).2.2 k = none := by
  unfold Game.collisionLoop
  refine foldl_invariant (Game.collisionCheck i) (fun acc => acc.2.2 k = none)
    _ (b, p, balls) hk ?_
  intro acc l hP
  unfold Game.collisionCheck
  by_cases hli : l = i
  · rw [if_neg (by simpa using hli)]
    exact hP
  · rw [if_pos hli]
    cases hsl : acc.2.2 l with
    | none => exact hP
    | some o =>
      dsimp only
      by_cases hd : Game.distance acc.2.1 o.position ≤ 2 * Params.Ball.radius
      · rw [if_pos hd]
        dsimp only
        have hkl : k ≠ l := fun h => by rw [h, hsl] at hP; cases hP
        rw [if_neg hkl]
        exact hP
      · rw [if_neg hd]
        exact hP

/-- The per-ball loop never refills an empty slot. -/
lemma ballStep_preserves_none (dt : ℝ) (acc : Game.Slots × List ℕ) (i' k : Fin 7)
    (hk : acc.1 k = none) : (Game.ballStep dt acc i').1 k = none := by
  obtain ⟨slots, events⟩ := acc
  dsimp only at hk ⊢
  cases hai : slots i' with
  | none =>
    rw [ballStep_none dt (slots, events) i' hai]
    exact hk
  | some b' =>
    have hki : k ≠ i' := fun h => by rw [h, hai] at hk; cases hk
    by_cases hcap : ∃ j0 : Fin 6, Game.distance (b'.getNextPosition dt)
        (Params.Table.pocketsPositions j0) < Params.Table.pocketRadius
    · obtain ⟨j0, hj0⟩ := hcap
      rw [ballStep_scored dt slots events i' b' hai j0 hj0]
      dsimp only
      rw [if_neg hki]
      exact hk
    · have hcap' : ∀ j : Fin 6, ¬ Game.distance (b'.getNextPosition dt)
          (Params.Table.pocketsPositions j) < Params.Table.pocketRadius :=
        fun j hj => hcap ⟨j, hj⟩
      unfold Game.ballStep
      dsimp only
      rw [hai]
      dsimp only
      rw [pocketLoop_no_match _ _ _ hcap']
      dsimp only
      rw [if_neg (fun h => Bool.noConfusion h)]
      dsimp only
      rw [if_neg hki]
      exact collisionLoop_preserves_none i' _ _ slots k hk

/-- A step of any other ball neither touches the destroyed-mesh count of a
foreign mesh nor introduces a ball carrying it. -/
lemma ballStep_other (dt : ℝ) (acc : Game.Slots × List ℕ) (i' : Fin 7) (m : ℕ)
    (hmesh : ∀ k bb, acc.1 k = some bb → bb.gameMesh ≠ m) :
    (Game.ballStep dt acc i').2.count m = acc.2.count m ∧
    (∀ k bb, (Game.ballStep dt acc i').1 k = some bb → bb.gameMesh ≠ m) := by
  obtain ⟨slots, events⟩ := acc
  dsimp only at hmesh ⊢
  cases hai : slots i' with
  | none =>
    rw [ballStep_none dt (slots, events) i' hai]
    exact ⟨rfl, hmesh⟩
  | some b' =>
    have hbm : b'.gameMesh ≠ m := hmesh i' b' hai
    by_cases hcap : ∃ j0 : Fin 6, Game.distance (b'.getNextPosition dt)
        (Params.Table.pocketsPositions j0) < Params.Table.pocketRadius
    · obtain ⟨j0, hj0⟩ := hcap
      rw [ballStep_scored dt slots events i' b' hai j0 hj0]
      constructor
      · dsimp only
        rw [List.count_append]
        simp [List.count_cons, hbm]
      · intro k bb hk
        dsimp only at hk
        by_cases hki : k = i'
        · rw [if_pos hki] at hk
          cases hk
        · rw [if_neg hki] at hk
          exact hmesh k bb hk
    · have hcap' : ∀ j : Fin 6, ¬ Game.distance (b'.getNextPosition dt)
          (Params.Table.pocketsPositions j) < Params.Table.pocketRadius :=
        fun j hj => hcap ⟨j, hj⟩
      unfold Game.ballStep
      dsimp only
      rw [hai]
      dsimp only
      rw [pocketLoop_no_match _ _ _ hcap']
      dsimp only
      rw [if_neg (fun h => Bool.noConfusion h)]
      have hbd : (Game.boundaryStep
          ⟨b'.position, Game.frictionStep b'.speed, b'.gameMesh⟩
          (b'.getNextPosition dt)).1.gameMesh ≠ m := by
        rw [boundaryStep_gameMesh]
        exact hbm
      have hcl := collisionLoop_mesh i'
        (Game.boundaryStep ⟨b'.position, Game.frictionStep b'.speed, b'.gameMesh⟩
          (b'.getNextPosition dt)).1
        (Game.boundaryStep ⟨b'.position, Game.frictionStep b'.speed, b'.gameMesh⟩
          (b'.getNextPosition dt)).2
        slots m hbd hmesh
      constructor
      · dsimp only
        rw [List.append_nil]
      · intro k bb hk
        dsimp only at hk
        by_cases hki : k = i'
        · rw [if_pos hki] at hk
          obtain rfl := Option.some.inj hk
          dsimp only
          exact hcl.1
        · rw [if_neg hki] at hk
          exact hcl.2 k bb hk

/-- `ballStep_scored` restated for an arbitrary accumulator pair. -/
lemma ballStep_scored_acc (dt : ℝ) (acc : Game.Slots × List ℕ) (i : Fin 7)
    (b : BillBall) (hb : acc.1 i = some b) (j0 : Fin 6)
    (hj0 : Game.distance (b.getNextPosition dt) (Params.Table.pocketsPositions j0) <
      Params.Table.pocketRadius) :
    Game.ballStep dt acc i =
      (fun j => if j = i then none else acc.1 j, acc.2 ++ [b.gameMesh]) := by
  obtain ⟨slots, events⟩ := acc
  exact ballStep_scored dt slots events i b hb j0 hj0

/-- A step of a ball in a slot other than `i` neither emits a destroy
event for a mesh `m` carried only by slot `i` nor makes any slot other
than `i` carry `m`. -/
lemma ballStep_other_ne (dt : ℝ) (acc : Game.Slots × List ℕ) (k i : Fin 7) (m : ℕ)
    (hk : k ≠ i)
    (hmesh : ∀ k' bb, k' ≠ i → acc.1 k' = some bb → bb.gameMesh ≠ m) :
    (Game.ballStep dt acc k).2.count m = acc.2.count m ∧
    (∀ k' bb, k' ≠ i → (Game.ballStep dt acc k).1 k' = some bb → bb.gameMesh ≠ m) := by
  obtain ⟨slots, events⟩ := acc
  dsimp only at hmesh ⊢
  cases hak : slots k with
  | none =>
    rw [ballStep_none dt (slots, events) k hak]
    exact ⟨rfl, hmesh⟩
  | some b =>
    have hbm : b.gameMesh ≠ m := hmesh k b hk hak
    by_cases hcap : ∃ j0 : Fin 6, Game.distance (b.getNextPosition dt)
        (Params.Table.pocketsPositions j0) < Params.Table.pocketRadius
    · obtain ⟨j0, hj0⟩ := hcap
      rw [ballStep_scored dt slots events k b hak j0 hj0]
      constructor
      · dsimp only
        rw [List.count_append]
        simp [List.count_cons, hbm]
      · intro k' bb hki' hbb
        dsimp only at hbb
        by_cases hkk : k' = k
        · rw [if_pos hkk] at hbb
          cases hbb
        · rw [if_neg hkk] at hbb
          exact hmesh k' bb hki' hbb
    · have hcap' : ∀ j : Fin 6, ¬ Game.distance (b.getNextPosition dt)
          (Params.Table.pocketsPositions j) < Params.Table.pocketRadius :=
        fun j hj => hcap ⟨j, hj⟩
      unfold Game.ballStep
      dsimp only
      rw [hak]
      dsimp only
      rw [pocketLoop_no_match _ _ _ hcap']
      dsimp only
      rw [if_neg (fun h => Bool.noConfusion h)]
      have hcl := collisionLoop_track k
        (Game.boundaryStep ⟨b.position, Game.frictionStep b.speed, b.gameMesh⟩
          (b.getNextPosition dt)).1
        (Game.boundaryStep ⟨b.position, Game.frictionStep b.speed, b.gameMesh⟩
          (b.getNextPosition dt)).2
        slots
      have hcom : (Game.collisionLoop k
          (Game.boundaryStep ⟨b.position, Game.frictionStep b.speed, b.gameMesh⟩
            (b.getNextPosition dt)).1
          (Game.boundaryStep ⟨b.position, Game.frictionStep b.speed, b.gameMesh⟩
            (b.getNextPosition dt)).2 slots).1.gameMesh ≠ m := by
        rw [hcl.2.1, boundaryStep_gameMesh]
        exact hbm
      constructor
      · dsimp only
        rw [List.append_nil]
      · intro k' bb hki' hbb
        dsimp only at hbb
        by_cases hkk : k' = k
        · rw [if_pos hkk] at hbb
          obtain rfl := Option.some.inj hbb
          exact hcom
        · rw [if_neg hkk] at hbb
          obtain ⟨o, ho, hop, hom⟩ := hcl.2.2.2 k' bb hbb
          rw [hom]
          exact hmesh k' o hki' ho

lemma update_preserves_none (dt : ℝ) (t : Game.GameState) (i : Fin 7)
    (ht : t.balls i = none) : (Game.update dt t).1.balls i = none := by
  show ([(0 : Fin 7), 1, 2, 3, 4, 5, 6].foldl (Game.ballStep dt) (t.balls, [])).1 i = none
  exact foldl_invariant _ (fun acc => acc.1 i = none) _ (t.balls, []) ht
    (fun acc k hP => ballStep_preserves_none dt acc k i hP)

/-- The ball's circular extent lies inside the table rectangle: the four
wall comparisons of `Game::update`, non-strict. -/
def inBounds (p : Vector2) : Prop :=
  p.x + Params.Ball.radius ≤ 0.5 * Params.Table.width ∧
  p.x - Params.Ball.radius ≥ -0.5 * Params.Table.width ∧
  p.y + Params.Ball.radius ≤ 0.5 * Params.Table.height ∧
  p.y - Params.Ball.radius ≥ -0.5 * Params.Table.height

/-- A predicted position that leaves the table on at most one axis, with a
penetration depth of at most the table dimension minus the ball diameter
on every edge. -/
def predOK (p : Vector2) : Prop :=
  ¬((p.x + Params.Ball.radius > 0.5 * Params.Table.width ∨
     p.x - Params.Ball.radius < -0.5 * Params.Table.width) ∧
    (p.y + Params.Ball.radius > 0.5 * Params.Table.height ∨
     p.y - Params.Ball.radius < -0.5 * Params.Table.height)) ∧
  (p.x + Params.Ball.radius - 0.5 * Params.Table.width ≤
    Params.Table.width - 2 * Params.Ball.radius) ∧
  (-0.5 * Params.Table.width - p.x + Params.Ball.radius ≤
    Params.Table.width - 2 * Params.Ball.radius) ∧
  (p.y + Params.Ball.radius - 0.5 * Params.Table.height ≤
    Params.Table.height - 2 * Params.Ball.radius) ∧
  (-0.5 * Params.Table.height - p.y + Params.Ball.radius ≤
    Params.Table.height - 2 * Params.Ball.radius)

/-- State of the per-ball fold of `Game::update` after its first `n`
iterations. -/
def Game.accAt (dt : ℝ) (s : Game.GameState) (n : ℕ) : Game.Slots × List ℕ :=
  ([(0 : Fin 7), 1, 2, 3, 4, 5, 6].take n).foldl (Game.ballStep dt) (s.balls, [])

/-- A ricochet of a ball whose position satisfies the single-axis and
depth conditions lands with its whole extent inside the table. -/
lemma ricochet_position_inBounds (b : BillBall) (h : predOK b.position) :
    inBounds (PhysicEvents.ricochet b).position := by
  obtain ⟨hax, hdx1, hdx2, hdy1, hdy2⟩ := h
  have hWr : (0 : ℝ) < Params.Table.width - 2 * Params.Ball.radius := by
    norm_num [Params.Table.width, Params.Ball.radius]
  have hHr : (0 : ℝ) < Params.Table.height - 2 * Params.Ball.radius := by
    norm_num [Params.Table.height, Params.Ball.radius]
  by_cases hx1 : b.position.x + Params.Ball.radius > 0.5 * Params.Table.width
  · have hy1 : ¬ b.position.y + Params.Ball.radius > 0.5 * Params.Table.height :=
      fun hy => hax ⟨Or.inl hx1, Or.inl hy⟩
    have hy2 : ¬ b.position.y - Params.Ball.radius < -0.5 * Params.Table.height :=
      fun hy => hax ⟨Or.inl hx1, Or.inr hy⟩
    push_neg at hy1 hy2
    rw [ricochet_x_high b hx1 hdx1 hy1 hy2]
    exact ⟨by dsimp only; linarith, by dsimp only; linarith,
      by dsimp only; linarith, by dsimp only; linarith⟩
  · by_cases hx2 : b.position.x - Params.Ball.radius < -0.5 * Params.Table.width
    · have hy1 : ¬ b.position.y + Params.Ball.radius > 0.5 * Params.Table.height :=
        fun hy => hax ⟨Or.inr hx2, Or.inl hy⟩
      have hy2 : ¬ b.position.y - Params.Ball.radius < -0.5 * Params.Table.height :=
        fun hy => hax ⟨Or.inr hx2, Or.inr hy⟩
      push_neg at hy1 hy2
      rw [ricochet_x_low b hx2 hdx2 hy1 hy2]
      exact ⟨by dsimp only; linarith, by dsimp only; linarith,
        by dsimp only; linarith, by dsimp only; linarith⟩
    · push_neg at hx1 hx2
      by_cases hy1 : b.position.y + Params.Ball.radius > 0.5 * Params.Table.height
      · rw [ricochet_y_high b hy1 hdy1 hx1 hx2]
        exact ⟨by dsimp only; linarith, by dsimp only; linarith,
          by dsimp only; linarith, by dsimp only; linarith⟩
      · by_cases hy2 : b.position.y - Params.Ball.radius < -0.5 * Params.Table.height
        · push_neg at hy1
          rw [ricochet_y_low b hy2 hdy2 hx1 hx2]
          exact ⟨by dsimp only; linarith, by dsimp only; linarith,
            by dsimp only; linarith, by dsimp only; linarith⟩
        · push_neg at hy1 hy2
          rw [ricochet_inside b (not_lt.2 hx1) (not_lt.2 hx2)
            (not_lt.2 hy1) (not_lt.2 hy2)]
          exact ⟨hx1, hx2, hy1, hy2⟩

/-- One iteration of the per-ball loop keeps every live ball's extent
inside the table, provided every live ball's extent was inside before and
the processed ball's predicted position satisfies the single-axis and
depth conditions. -/
lemma ballStep_keeps_inBounds (dt : ℝ) (acc : Game.Slots × List ℕ) (i : Fin 7)
    (hP : ∀ k b, acc.1 k = some b → inBounds b.position)
    (hpred : ∀ b, acc.1 i = some b → predOK (b.getNextPosition dt)) :
    ∀ k b', (Game.ballStep dt acc i).1 k = some b' → inBounds b'.position := by
  obtain ⟨slots, events⟩ := acc
  dsimp only at hP hpred ⊢
  cases hai : slots i with
  | none =>
    rw [ballStep_none dt (slots, events) i hai]
    exact hP
  | some b =>
    by_cases hcap : ∃ j0 : Fin 6, Game.distance (b.getNextPosition dt)
        (Params.Table.pocketsPositions j0) < Params.Table.pocketRadius
    · obtain ⟨j0, hj0⟩ := hcap
      rw [ballStep_scored dt slots events i b hai j0 hj0]
      intro k b' hk
      dsimp only at hk
      by_cases hki : k = i
      · rw [if_pos hki] at hk
        cases hk
      · rw [if_neg hki] at hk
        exact hP k b' hk
    · have hcap' : ∀ j : Fin 6, ¬ Game.distance (b.getNextPosition dt)
          (Params.Table.pocketsPositions j) < Params.Table.pocketRadius :=
        fun j hj => hcap ⟨j, hj⟩
      have hok := hpred b hai
      unfold Game.ballStep
      dsimp only
      rw [hai]
      dsimp only
      rw [pocketLoop_no_match _ _ _ hcap']
      dsimp only
      rw [if_neg (fun h => Bool.noConfusion h)]
      have hbd : inBounds (Game.boundaryStep
            ⟨b.position, Game.frictionStep b.speed, b.gameMesh⟩
            (b.getNextPosition dt)).1.position ∧
          inBounds (Game.boundaryStep
            ⟨b.position, Game.frictionStep b.speed, b.gameMesh⟩
            (b.getNextPosition dt)).2 := by
        unfold Game.boundaryStep
        by_cases hc : (b.getNextPosition dt).x + Params.Ball.radius >
              0.5 * Params.Table.width ∨
            (b.getNextPosition dt).x - Params.Ball.radius < -0.5 * Params.Table.width ∨
            (b.getNextPosition dt).y + Params.Ball.radius > 0.5 * Params.Table.height ∨
            (b.getNextPosition dt).y - Params.Ball.radius < -0.5 * Params.Table.height
        · rw [if_pos hc]
          have hr := ricochet_position_inBounds
            ⟨b.getNextPosition dt, Game.frictionStep b.speed, b.gameMesh⟩ hok
          exact ⟨hr, hr⟩
        · rw [if_neg hc]
          push_neg at hc
          exact ⟨hP i b hai, hc.1, hc.2.1, hc.2.2.1, hc.2.2.2⟩
      have hcl := collisionLoop_track i
        (Game.boundaryStep ⟨b.position, Game.frictionStep b.speed, b.gameMesh⟩
          (b.getNextPosition dt)).1
        (Game.boundaryStep ⟨b.position, Game.frictionStep b.speed, b.gameMesh⟩
          (b.getNextPosition dt)).2
        slots
      have hcom : inBounds ((Game.collisionLoop i
          (Game.boundaryStep ⟨b.position, Game.frictionStep b.speed, b.gameMesh⟩
            (b.getNextPosition dt)).1
          (Game.boundaryStep ⟨b.position, Game.frictionStep b.speed, b.gameMesh⟩
            (b.getNextPosition dt)).2 slots).2.1) := by
        rcases hcl.2.2.1 with h | h
        · rw [h]
          exact hbd.2
        · rw [h]
          exact hbd.1
      intro k b' hk
      dsimp only at hk
      by_cases hki : k = i
      · rw [if_pos hki] at hk
        obtain rfl := Option.some.inj hk
        exact hcom
      · rw [if_neg hki] at hk
        obtain ⟨o, ho, hop, hom⟩ := hcl.2.2.2 k b' hk
        rw [hop]
        exact hP k o ho

/-- C2 amended: containment holds for every table state once the corner
case is excluded ball by ball: starting from a state in which every live
ball's circular extent lies inside the table, if the position each
processed ball predicts at its own step of the per-ball loop (its current
position plus its current speed, after any same-frame collisions) leaves
the table on at most one axis, with a penetration depth of at most the
table dimension minus the ball diameter, then after `update` every ball
still on the table has its whole circular extent inside the table
rectangle.  A two-axis (corner) penetration instead survives the update
(see `c2_counterexample`). -/
theorem c2_boundary_containment (dt : ℝ) (s : Game.GameState)
    (hin : ∀ k b, s.balls k = some b → inBounds b.position)
    (hpred : ∀ i : Fin 7, ∀ b, (Game.accAt dt s i.val).1 i = some b →
      predOK (b.getNextPosition dt))
    (k : Fin 7) (b' : BillBall)
    (hk : (Game.update dt s).1.balls k = some b') :
    b'.position.x + Params.Ball.radius ≤ 0.5 * Params.Table.width ∧
    b'.position.x - Params.Ball.radius ≥ -0.5 * Params.Table.width ∧
    b'.position.y + Params.Ball.radius ≤ 0.5 * Params.Table.height ∧
    b'.position.y - Params.Ball.radius ≥ -0.5 * Params.Table.height := by
  have h0 : ∀ q b, (Game.accAt dt s 0).1 q = some b → inBounds b.position := hin
  have h1 : ∀ q b, (Game.accAt dt s 1).1 q = some b → inBounds b.position :=
    ballStep_keeps_inBounds dt (Game.accAt dt s 0) 0 h0 (hpred 0)
  have h2 : ∀ q b, (Game.accAt dt s 2).1 q = some b → inBounds b.position :=
    ballStep_keeps_inBounds dt (Game.accAt dt s 1) 1 h1 (hpred 1)
  have h3 : ∀ q b, (Game.accAt dt s 3).1 q = some b → inBounds b.position :=
    ballStep_keeps_inBounds dt (Game.accAt dt s 2) 2 h2 (hpred 2)
  have h4 : ∀ q b, (Game.accAt dt s 4).1 q = some b → inBounds b.position :=
    ballStep_keeps_inBounds dt (Game.accAt dt s 3) 3 h3 (hpred 3)
  have h5 : ∀ q b, (Game.accAt dt s 5).1 q = some b → inBounds b.position :=
    ballStep_keeps_inBounds dt (Game.accAt dt s 4) 4 h4 (hpred 4)
  have h6 : ∀ q b, (Game.accAt dt s 6).1 q = some b → inBounds b.position :=
    ballStep_keeps_inBounds dt (Game.accAt dt s 5) 5 h5 (hpred 5)
  have h7 : ∀ q b, (Game.accAt dt s 7).1 q = some b → inBounds b.position :=
    ballStep_keeps_inBounds dt (Game.accAt dt s 6) 6 h6 (hpred 6)
  exact h7 k b' hk

/-- Witness for the amended C2: a single ball struck toward the middle of
the table stays fully inside after one update. -/
theorem c2_boundary_containment_witness :
    ((⟨Vector2.mk (0 + 1) (0 + 0), Game.frictionStep (Vector2.mk 1 0), 0⟩ : BillBall).position.x
        + Params.Ball.radius ≤ 0.5 * Params.Table.width) ∧
    ((⟨Vector2.mk (0 + 1) (0 + 0), Game.frictionStep (Vector2.mk 1 0), 0⟩ : BillBall).position.x
        - Params.Ball.radius ≥ -0.5 * Params.Table.width) ∧
    ((⟨Vector2.mk (0 + 1) (0 + 0), Game.frictionStep (Vector2.mk 1 0), 0⟩ : BillBall).position.y
        + Params.Ball.radius ≤ 0.5 * Params.Table.height) ∧
    ((⟨Vector2.mk (0 + 1) (0 + 0), Game.frictionStep (Vector2.mk 1 0), 0⟩ : BillBall).position.y
        - Params.Ball.radius ≥ -0.5 * Params.Table.height) := by
  have hnp : ∀ j : Fin 6,
      ¬ Game.distance ((⟨Vector2.mk 0 0, Vector2.mk 1 0, 0⟩ : BillBall).getNextPosition 1)
        (Params.Table.pocketsPositions j) < Params.Table.pocketRadius := by
    intro j
    rw [distance_lt_iff _ _ _ (by norm_num [Params.Table.pocketRadius])]
    fin_cases j <;>
      simp [BillBall.getNextPosition, Params.Table.pocketsPositions,
        Params.Table.pocketRadius, Params.Table.width, Params.Table.height] <;>
      norm_num
  have hnb : ¬(((⟨Vector2.mk 0 0, Vector2.mk 1 0, 0⟩ : BillBall).getNextPosition 1).x
        + Params.Ball.radius > 0.5 * Params.Table.width ∨
      ((⟨Vector2.mk 0 0, Vector2.mk 1 0, 0⟩ : BillBall).getNextPosition 1).x
        - Params.Ball.radius < -0.5 * Params.Table.width ∨
      ((⟨Vector2.mk 0 0, Vector2.mk 1 0, 0⟩ : BillBall).getNextPosition 1).y
        + Params.Ball.radius > 0.5 * Params.Table.height ∨
      ((⟨Vector2.mk 0 0, Vector2.mk 1 0, 0⟩ : BillBall).getNextPosition 1).y
        - Params.Ball.radius < -0.5 * Params.Table.height) := by
    simp only [BillBall.getNextPosition]
    norm_num [Params.Ball.radius, Params.Table.width, Params.Table.height]
  have hstep0 : Game.ballStep 1
      (singleSlots ⟨Vector2.mk 0 0, Vector2.mk 1 0, 0⟩, ([] : List ℕ)) 0 =
      (singleSlots ⟨(⟨Vector2.mk 0 0, Vector2.mk 1 0, 0⟩ : BillBall).getNextPosition 1,
        Game.frictionStep (⟨Vector2.mk 0 0, Vector2.mk 1 0, 0⟩ : BillBall).speed,
        (⟨Vector2.mk 0 0, Vector2.mk 1 0, 0⟩ : BillBall).gameMesh⟩, []) := by
    have hb := ballStep_clean 1 (singleSlots ⟨Vector2.mk 0 0, Vector2.mk 1 0, 0⟩) [] 0
      ⟨Vector2.mk 0 0, Vector2.mk 1 0, 0⟩ (singleSlots_zero _) hnp hnb
      (fun l hl o ho => by simp [singleSlots, hl] at ho)
    rw [slot_write_zero] at hb
    exact hb
  have ha1 : Game.accAt 1
      ⟨singleSlots ⟨Vector2.mk 0 0, Vector2.mk 1 0, 0⟩, false, 0⟩ 1 =
      (singleSlots ⟨(⟨Vector2.mk 0 0, Vector2.mk 1 0, 0⟩ : BillBall).getNextPosition 1,
        Game.frictionStep (⟨Vector2.mk 0 0, Vector2.mk 1 0, 0⟩ : BillBall).speed,
        (⟨Vector2.mk 0 0, Vector2.mk 1 0, 0⟩ : BillBall).gameMesh⟩, []) := hstep0
  have ha2 : Game.accAt 1
      ⟨singleSlots ⟨Vector2.mk 0 0, Vector2.mk 1 0, 0⟩, false, 0⟩ 2 =
      (singleSlots ⟨(⟨Vector2.mk 0 0, Vector2.mk 1 0, 0⟩ : BillBall).getNextPosition 1,
        Game.frictionStep (⟨Vector2.mk 0 0, Vector2.mk 1 0, 0⟩ : BillBall).speed,
        (⟨Vector2.mk 0 0, Vector2.mk 1 0, 0⟩ : BillBall).gameMesh⟩, []) := by
    show Game.ballStep 1 (Game.accAt 1
      ⟨singleSlots ⟨Vector2.mk 0 0, Vector2.mk 1 0, 0⟩, false, 0⟩ 1) 1 = _
    rw [ha1]
    exact ballStep_none 1 _ 1 rfl
  have ha3 : Game.accAt 1
      ⟨singleSlots ⟨Vector2.mk 0 0, Vector2.mk 1 0, 0⟩, false, 0⟩ 3 =
      (singleSlots ⟨(⟨Vector2.mk 0 0, Vector2.mk 1 0, 0⟩ : BillBall).getNextPosition 1,
        Game.frictionStep (⟨Vector2.mk 0 0, Vector2.mk 1 0, 0⟩ : BillBall).speed,
        (⟨Vector2.mk 0 0, Vector2.mk 1 0, 0⟩ : BillBall).gameMesh⟩, []) := by
    show Game.ballStep 1 (Game.accAt 1
      ⟨singleSlots ⟨Vector2.mk 0 0, Vector2.mk 1 0, 0⟩, false, 0⟩ 2) 2 = _
    rw [ha2]
    exact ballStep_none 1 _ 2 rfl
  have ha4 : Game.accAt 1
      ⟨singleSlots ⟨Vector2.mk 0 0, Vector2.mk 1 0, 0⟩, false, 0⟩ 4 =
      (singleSlots ⟨(⟨Vector2.mk 0 0, Vector2.mk 1 0, 0⟩ : BillBall).getNextPosition 1,
        Game.frictionStep (⟨Vector2.mk 0 0, Vector2.mk 1 0, 0⟩ : BillBall).speed,
        (⟨Vector2.mk 0 0, Vector2.mk 1 0, 0⟩ : BillBall).gameMesh⟩, []) := by
    show Game.ballStep 1 (Game.accAt 1
      ⟨singleSlots ⟨Vector2.mk 0 0, Vector2.mk 1 0, 0⟩, false, 0⟩ 3) 3 = _
    rw [ha3]
    exact ballStep_none 1 _ 3 rfl
  have ha5 : Game.accAt 1
      ⟨singleSlots ⟨Vector2.mk 0 0, Vector2.mk 1 0, 0⟩, false, 0⟩ 5 =
      (singleSlots ⟨(⟨Vector2.mk 0 0, Vector2.mk 1 0, 0⟩ : BillBall).getNextPosition 1,
        Game.frictionStep (⟨Vector2.mk 0 0, Vector2.mk 1 0, 0⟩ : BillBall).speed,
        (⟨Vector2.mk 0 0, Vector2.mk 1 0, 0⟩ : BillBall).gameMesh⟩, []) := by
    show Game.ballStep 1 (Game.accAt 1
      ⟨singleSlots ⟨Vector2.mk 0 0, Vector2.mk 1 0, 0⟩, false, 0⟩ 4) 4 = _
    rw [ha4]
    exact ballStep_none 1 _ 4 rfl
  have ha6 : Game.accAt 1
      ⟨singleSlots ⟨Vector2.mk 0 0, Vector2.mk 1 0, 0⟩, false, 0⟩ 6 =
      (singleSlots ⟨(⟨Vector2.mk 0 0, Vector2.mk 1 0, 0⟩ : BillBall).getNextPosition 1,
        Game.frictionStep (⟨Vector2.mk 0 0, Vector2.mk 1 0, 0⟩ : BillBall).speed,
        (⟨Vector2.mk 0 0, Vector2.mk 1 0, 0⟩ : BillBall).gameMesh⟩, []) := by
    show Game.ballStep 1 (Game.accAt 1
      ⟨singleSlots ⟨Vector2.mk 0 0, Vector2.mk 1 0, 0⟩, false, 0⟩ 5) 5 = _
    rw [ha5]
    exact ballStep_none 1 _ 5 rfl
  have hnone : ∀ i : Fin 7, i ≠ 0 →
      (Game.accAt 1 ⟨singleSlots ⟨Vector2.mk 0 0, Vector2.mk 1 0, 0⟩, false, 0⟩ i.val).1 i
        = none := by
    intro i hi
    fin_cases i
    · exact absurd rfl hi
    · show (Game.accAt 1
        ⟨singleSlots ⟨Vector2.mk 0 0, Vector2.mk 1 0, 0⟩, false, 0⟩ 1).1 _ = none
      rw [ha1]
      rfl
    · show (Game.accAt 1
        ⟨singleSlots ⟨Vector2.mk 0 0, Vector2.mk 1 0, 0⟩, false, 0⟩ 2).1 _ = none
      rw [ha2]
      rfl
    · show (Game.accAt 1
        ⟨singleSlots ⟨Vector2.mk 0 0, Vector2.mk 1 0, 0⟩, false, 0⟩ 3).1 _ = none
      rw [ha3]
      rfl
    · show (Game.accAt 1
        ⟨singleSlots ⟨Vector2.mk 0 0, Vector2.mk 1 0, 0⟩, false, 0⟩ 4).1 _ = none
      rw [ha4]
      rfl
    · show (Game.accAt 1
        ⟨singleSlots ⟨Vector2.mk 0 0, Vector2.mk 1 0, 0⟩, false, 0⟩ 5).1 _ = none
      rw [ha5]
      rfl
    · show (Game.accAt 1
        ⟨singleSlots ⟨Vector2.mk 0 0, Vector2.mk 1 0, 0⟩, false, 0⟩ 6).1 _ = none
      rw [ha6]
      rfl
  have hpredOK : predOK ((⟨Vector2.mk 0 0, Vector2.mk 1 0, 0⟩ : BillBall).getNextPosition 1) := by
    refine ⟨?_, ?_, ?_, ?_, ?_⟩ <;>
      norm_num [BillBall.getNextPosition, Params.Ball.radius,
        Params.Table.width, Params.Table.height]
  have hin : ∀ k b,
      (⟨singleSlots ⟨Vector2.mk 0 0, Vector2.mk 1 0, 0⟩, false, 0⟩ :
        Game.GameState).balls k = some b → inBounds b.position := by
    intro k b hkb
    by_cases hk0 : k = 0
    · subst hk0
      obtain rfl := Option.some.inj hkb
      exact ⟨by norm_num [Params.Ball.radius, Params.Table.width],
        by norm_num [Params.Ball.radius, Params.Table.width],
        by norm_num [Params.Ball.radius, Params.Table.height],
        by norm_num [Params.Ball.radius, Params.Table.height]⟩
    · simp [singleSlots, hk0] at hkb
  have hpred : ∀ i : Fin 7, ∀ b,
      (Game.accAt 1 ⟨singleSlots ⟨Vector2.mk 0 0, Vector2.mk 1 0, 0⟩, false, 0⟩ i.val).1 i
        = some b → predOK (b.getNextPosition 1) := by
    intro i b hib
    by_cases hi0 : i = 0
    · subst hi0
      obtain rfl := Option.some.inj hib
      exact hpredOK
    · rw [hnone i hi0] at hib
      exact Option.noConfusion hib
  refine c2_boundary_containment 1
    ⟨singleSlots ⟨Vector2.mk 0 0, Vector2.mk 1 0, 0⟩, false, 0⟩ hin hpred 0
    ⟨Vector2.mk (0 + 1) (0 + 0), Game.frictionStep (Vector2.mk 1 0), 0⟩ ?_
  rw [update_single 1 false 0 _ _ hstep0, singleSlots_zero]
  rfl


/-- C4: a ball whose predicted position — the position plus the speed it
holds when the per-ball loop reaches its slot — falls inside the capture
radius of a pocket is removed exactly once during the update: one destroy
event is emitted for its mesh (the five other pockets are still probed,
but cannot match by `pocket_match_unique`), its slot is cleared, and an
empty slot is never referenced again — every later frame keeps it
empty. -/
theorem c4_pocket_capture_once (dt : ℝ) (s : Game.GameState) (i : Fin 7) (b : BillBall)
    (j0 : Fin 6)
    (hb : (Game.accAt dt s i.val).1 i = some b)
    (hj0 : Game.distance (b.getNextPosition dt) (Params.Table.pocketsPositions j0) <
      Params.Table.pocketRadius)
    (hmesh : ∀ k : Fin 7, ∀ bb : BillBall, k ≠ i → s.balls k = some bb →
      bb.gameMesh ≠ b.gameMesh)
    (dt' : ℝ) (t : Game.GameState) (ht : t.balls i = none) :
    (Game.update dt s).2.count b.gameMesh = 1 ∧
    (Game.update dt s).1.balls i = none ∧
    (Game.update dt' t).1.balls i = none := by
  set Q : Game.Slots × List ℕ → Prop := fun acc =>
    acc.2.count b.gameMesh = 0 ∧
      ∀ k' bb, k' ≠ i → acc.1 k' = some bb → bb.gameMesh ≠ b.gameMesh with hQdef
  set P : Game.Slots × List ℕ → Prop := fun acc =>
    acc.2.count b.gameMesh = 1 ∧
      (∀ k' bb, acc.1 k' = some bb → bb.gameMesh ≠ b.gameMesh) ∧ acc.1 i = none with hPdef
  have hstep : ∀ (acc : Game.Slots × List ℕ) (k : Fin 7), P acc →
      P (Game.ballStep dt acc k) := by
    rintro acc k ⟨h1, h2, h3⟩
    refine ⟨?_, (ballStep_other dt acc k _ h2).2, ballStep_preserves_none dt acc k i h3⟩
    rw [(ballStep_other dt acc k _ h2).1]
    exact h1
  have hQstep : ∀ (acc : Game.Slots × List ℕ) (k : Fin 7), k ≠ i → Q acc →
      Q (Game.ballStep dt acc k) := by
    rintro acc k hki ⟨h1, h2⟩
    have ho := ballStep_other_ne dt acc k i b.gameMesh hki h2
    refine ⟨?_, ho.2⟩
    rw [ho.1]
    exact h1
  have hQ0 : Q (s.balls, ([] : List ℕ)) := by
    refine ⟨by simp, ?_⟩
    intro k' bb hk' hbb
    exact hmesh k' bb hk' hbb
  have hcapstep : ∀ acc : Game.Slots × List ℕ, Q acc → acc.1 i = some b →
      P (Game.ballStep dt acc i) := by
    rintro acc ⟨h1, h2⟩ hai
    rw [ballStep_scored_acc dt acc i b hai j0 hj0]
    refine ⟨?_, ?_, ?_⟩
    · dsimp only
      rw [List.count_append, h1]
      simp
    · intro k' bb hk'
      dsimp only at hk'
      by_cases hki : k' = i
      · rw [if_pos hki] at hk'
        cases hk'
      · rw [if_neg hki] at hk'
        exact h2 k' bb hki hk'
    · dsimp only
      rw [if_pos rfl]
  have core : ∀ l1 l2 : List (Fin 7), (∀ k ∈ l1, k ≠ i) →
      ([(0 : Fin 7), 1, 2, 3, 4, 5, 6] = l1 ++ i :: l2) →
      (l1.foldl (Game.ballStep dt) (s.balls, [])).1 i = some b →
      P ([(0 : Fin 7), 1, 2, 3, 4, 5, 6].foldl (Game.ballStep dt) (s.balls, [])) := by
    intro l1 l2 hne hsplit hbl
    rw [hsplit, List.foldl_append, List.foldl_cons]
    have hQpre : Q (l1.foldl (Game.ballStep dt) (s.balls, [])) :=
      foldl_invariant_mem (Game.ballStep dt) Q l1 (s.balls, []) hQ0
        (fun x c hc hx => hQstep x c (hne c hc) hx)
    exact foldl_invariant _ P l2 _ (hcapstep _ hQpre hbl) hstep
  have main : P ([(0 : Fin 7), 1, 2, 3, 4, 5, 6].foldl (Game.ballStep dt) (s.balls, [])) := by
    fin_cases i
    · exact core [] [1, 2, 3, 4, 5, 6]
        (fun k hk => absurd hk (List.not_mem_nil k)) rfl hb
    · exact core [0] [2, 3, 4, 5, 6]
        (fun k hk => by fin_cases hk <;> decide) rfl hb
    · exact core [0, 1] [3, 4, 5, 6]
        (fun k hk => by fin_cases hk <;> decide) rfl hb
    · exact core [0, 1, 2] [4, 5, 6]
        (fun k hk => by fin_cases hk <;> decide) rfl hb
    · exact core [0, 1, 2, 3] [5, 6]
        (fun k hk => by fin_cases hk <;> decide) rfl hb
    · exact core [0, 1, 2, 3, 4] [6]
        (fun k hk => by fin_cases hk <;> decide) rfl hb
    · exact core [0, 1, 2, 3, 4, 5] []
        (fun k hk => by fin_cases hk <;> decide) rfl hb
  exact ⟨main.1, main.2.2, update_preserves_none dt' t i ht⟩

/-- Witness for C4: the slot-1 ball drifts into the bottom-left corner
pocket while the untouched cue ball rests at the table center. -/
theorem c4_pocket_capture_once_witness :
    (Game.update 1 ⟨(fun j => if j = 0 then some ⟨Vector2.mk 0 0, Vector2.mk 0 0, 7⟩
        else if j = 1 then some ⟨Vector2.mk (-7.2) (-3.8), Vector2.mk (-0.2) (-0.15), 0⟩
        else none : Game.Slots), false, 0⟩).2.count 0 = 1 ∧
    (Game.update 1 ⟨(fun j => if j = 0 then some ⟨Vector2.mk 0 0, Vector2.mk 0 0, 7⟩
        else if j = 1 then some ⟨Vector2.mk (-7.2) (-3.8), Vector2.mk (-0.2) (-0.15), 0⟩
        else none : Game.Slots), false, 0⟩).1.balls 1 = none ∧
    (Game.update 2 ⟨fun _ => none, false, 0⟩).1.balls 1 = none := by
  have hstep0 := ballStep_clean 1
    (fun j => if j = 0 then some ⟨Vector2.mk 0 0, Vector2.mk 0 0, 7⟩
      else if j = 1 then some ⟨Vector2.mk (-7.2) (-3.8), Vector2.mk (-0.2) (-0.15), 0⟩
      else none) []
    0 ⟨Vector2.mk 0 0, Vector2.mk 0 0, 7⟩ rfl
    (by
      intro j
      rw [distance_lt_iff _ _ _ (by norm_num [Params.Table.pocketRadius])]
      fin_cases j <;>
        simp [BillBall.getNextPosition, Params.Table.pocketsPositions,
          Params.Table.pocketRadius, Params.Table.width, Params.Table.height] <;>
        norm_num)
    (by
      simp only [BillBall.getNextPosition]
      norm_num [Params.Ball.radius, Params.Table.width, Params.Table.height])
    (by
      intro l hl o ho
      fin_cases l
      · exact absurd rfl hl
      · obtain rfl := Option.some.inj ho
        rw [distance_le_iff _ _ _ (by norm_num [Params.Ball.radius])]
        norm_num [BillBall.getNextPosition, Params.Ball.radius]
      · exact Option.noConfusion ho
      · exact Option.noConfusion ho
      · exact Option.noConfusion ho
      · exact Option.noConfusion ho
      · exact Option.noConfusion ho)
  have hb1 : (Game.accAt 1
      ⟨(fun j => if j = 0 then some ⟨Vector2.mk 0 0, Vector2.mk 0 0, 7⟩
        else if j = 1 then some ⟨Vector2.mk (-7.2) (-3.8), Vector2.mk (-0.2) (-0.15), 0⟩
        else none : Game.Slots), false, 0⟩ (1 : Fin 7).val).1 1 =
      some ⟨Vector2.mk (-7.2) (-3.8), Vector2.mk (-0.2) (-0.15), 0⟩ := by
    show (Game.ballStep 1
      ((fun j => if j = 0 then some ⟨Vector2.mk 0 0, Vector2.mk 0 0, 7⟩
        else if j = 1 then some ⟨Vector2.mk (-7.2) (-3.8), Vector2.mk (-0.2) (-0.15), 0⟩
        else none : Game.Slots), ([] : List ℕ)) 0).1 1 = _
    rw [hstep0]
    rfl
  exact c4_pocket_capture_once 1
    ⟨(fun j => if j = 0 then some ⟨Vector2.mk 0 0, Vector2.mk 0 0, 7⟩
      else if j = 1 then some ⟨Vector2.mk (-7.2) (-3.8), Vector2.mk (-0.2) (-0.15), 0⟩
      else none : Game.Slots), false, 0⟩
    1 ⟨Vector2.mk (-7.2) (-3.8), Vector2.mk (-0.2) (-0.15), 0⟩ 0
    hb1
    (by
      rw [distance_lt_iff _ _ _ (by norm_num [Params.Table.pocketRadius])]
      norm_num [BillBall.getNextPosition, Params.Table.pocketsPositions,
        Params.Table.pocketRadius, Params.Table.width, Params.Table.height])
    (by
      intro k bb hk hbb
      fin_cases k
      · obtain rfl := Option.some.inj hbb
        exact (by decide : (7 : ℕ) ≠ 0)
      · exact absurd rfl hk
      · exact Option.noConfusion hbb
      · exact Option.noConfusion hbb
      · exact Option.noConfusion hbb
      · exact Option.noConfusion hbb
      · exact Option.noConfusion hbb)
    2 ⟨fun _ => none, false, 0⟩ rfl


/-- Per-ball step of the slot-0 ball when it misses pockets and walls but
contacts the slot-1 ball: the position to move is reset to the current
(pre-move) position and `collide` redirects both speeds. -/
lemma ballStep_one_collision (dt : ℝ) (slots : Game.Slots) (events : List ℕ)
    (b o : BillBall) (hb : slots 0 = some b) (ho : slots 1 = some o)
    (hnp : ∀ j : Fin 6, ¬ Game.distance (b.getNextPosition dt)
      (Params.Table.pocketsPositions j) < Params.Table.pocketRadius)
    (hnb : ¬((b.getNextPosition dt).x + Params.Ball.radius > 0.5 * Params.Table.width ∨
       (b.getNextPosition dt).x - Params.Ball.radius < -0.5 * Params.Table.width ∨
       (b.getNextPosition dt).y + Params.Ball.radius > 0.5 * Params.Table.height ∨
       (b.getNextPosition dt).y - Params.Ball.radius < -0.5 * Params.Table.height))
    (hd : Game.distance (b.getNextPosition dt) o.position ≤ 2 * Params.Ball.radius)
    (hrest : ∀ l : Fin 7, 1 < l → slots l = none) :
    Game.ballStep dt (slots, events) 0 =
      (fun j => if j = 0 then
          some ⟨b.position,
            (PhysicEvents.collide ⟨b.position, Game.frictionStep b.speed, b.gameMesh⟩ o).1.speed,
            b.gameMesh⟩
        else if j = 1 then
          some (PhysicEvents.collide ⟨b.position, Game.frictionStep b.speed, b.gameMesh⟩ o).2
        else slots j, events) := by
  unfold Game.ballStep
  dsimp only
  rw [hb]
  dsimp only
  rw [pocketLoop_no_match _ _ _ hnp]
  dsimp only
  rw [if_neg (fun h => Bool.noConfusion h)]
  unfold Game.boundaryStep
  rw [if_neg hnb]
  unfold Game.collisionLoop
  rw [show (([(0 : Fin 7), 1, 2, 3, 4, 5, 6]).drop ((0 : Fin 7).val + 1))
      = [1, 2, 3, 4, 5, 6] from rfl]
  rw [List.foldl_cons]
  have hstep1 : Game.collisionCheck 0
      (⟨b.position, Game.frictionStep b.speed, b.gameMesh⟩, b.getNextPosition dt, slots) 1 =
      ((PhysicEvents.collide ⟨b.position, Game.frictionStep b.speed, b.gameMesh⟩ o).1,
        b.position,
        fun j => if j = 1 then
          some (PhysicEvents.collide ⟨b.position, Game.frictionStep b.speed, b.gameMesh⟩ o).2
        else slots j) := by
    unfold Game.collisionCheck
    rw [if_pos (by decide : (1 : Fin 7) ≠ 0)]
    dsimp only
    rw [ho]
    dsimp only
    rw [if_pos hd]
  rw [hstep1]
  rw [foldl_fixed_of_forall (Game.collisionCheck 0) [2, 3, 4, 5, 6] _ ?rest]
  case rest =>
    intro l hl
    unfold Game.collisionCheck
    rw [if_pos (by fin_cases hl <;> decide : l ≠ 0)]
    dsimp only
    rw [if_neg (by fin_cases hl <;> decide : ¬l = 1), hrest l (by fin_cases hl <;> decide)]
  dsimp only
  rw [List.append_nil]
  rfl


lemma frictionStep_one : Game.frictionStep (Vector2.mk 1 0) = Vector2.mk 0.997 0 := by
  rw [frictionStep_big _ (by norm_num [Params.Physics.frictionDeceleration])]
  rw [show vecLen (Vector2.mk 1 0) = 1 from by
    unfold vecLen
    exact sqrt_of_sq 1 _ (by norm_num) (by norm_num)]
  simp only [Vector2.mk.injEq]
  norm_num [Params.Physics.frictionDeceleration]

lemma frictionStep_c10 : Game.frictionStep (Vector2.mk 0.997 0) = Vector2.mk 0.994 0 := by
  rw [frictionStep_big _ (by norm_num [Params.Physics.frictionDeceleration])]
  rw [show vecLen (Vector2.mk 0.997 0) = 0.997 from by
    unfold vecLen
    exact sqrt_of_sq 0.997 _ (by norm_num) (by norm_num)]
  simp only [Vector2.mk.injEq]
  norm_num [Params.Physics.frictionDeceleration]

lemma collide_c10 :
    PhysicEvents.collide ⟨Vector2.mk 0 0, Vector2.mk 0.997 0, 0⟩
      ⟨Vector2.mk 1.5 0, Vector2.mk 0 0, 1⟩ =
    (⟨Vector2.mk 0 0, Vector2.mk 0 0, 0⟩, ⟨Vector2.mk 1.5 0, Vector2.mk 0.997 0, 1⟩) := by
  unfold PhysicEvents.collide
  dsimp only
  rw [vectorProjecction_closed _ _ (by norm_num), vectorProjecction_closed _ _ (by norm_num)]
  simp only [Prod.mk.injEq, BillBall.mk.injEq, Vector2.mk.injEq]
  norm_num

/-- C10 counterexample: the slot-1 ball starts with exactly zero velocity,
inside the table, away from every pocket, and 1.5 away from the only other
ball (more than two radii).  The slot-0 ball moves to within two radii of
it during the same frame, the collision hands it the full speed, and its
own step then moves it: after one update its position and velocity have
both changed. -/
theorem c10_counterexample :
    Game.distance (Vector2.mk 1.5 0) (Vector2.mk 0 0) > 2 * Params.Ball.radius ∧
    ((1.5 : ℝ) + Params.Ball.radius ≤ 0.5 * Params.Table.width ∧
      (1.5 : ℝ) - Params.Ball.radius ≥ -0.5 * Params.Table.width ∧
      (0 : ℝ) + Params.Ball.radius ≤ 0.5 * Params.Table.height ∧
      (0 : ℝ) - Params.Ball.radius ≥ -0.5 * Params.Table.height) ∧
    (¬ Game.distance (Vector2.mk 1.5 0) (Params.Table.pocketsPositions 0) <
        Params.Table.pocketRadius ∧
      ¬ Game.distance (Vector2.mk 1.5 0) (Params.Table.pocketsPositions 1) <
        Params.Table.pocketRadius ∧
      ¬ Game.distance (Vector2.mk 1.5 0) (Params.Table.pocketsPositions 2) <
        Params.Table.pocketRadius ∧
      ¬ Game.distance (Vector2.mk 1.5 0) (Params.Table.pocketsPositions 3) <
        Params.Table.pocketRadius ∧
      ¬ Game.distance (Vector2.mk 1.5 0) (Params.Table.pocketsPositions 4) <
        Params.Table.pocketRadius ∧
      ¬ Game.distance (Vector2.mk 1.5 0) (Params.Table.pocketsPositions 5) <
        Params.Table.pocketRadius) ∧
    ((Game.update 1 ⟨fun j => if j = 0 then some ⟨Vector2.mk 0 0, Vector2.mk 1 0, 0⟩
          else if j = 1 then some ⟨Vector2.mk 1.5 0, Vector2.mk 0 0, 1⟩ else none,
        false, 0⟩).1.balls 1).map BillBall.speed = some (Vector2.mk 0.994 0) ∧
    ((Game.update 1 ⟨fun j => if j = 0 then some ⟨Vector2.mk 0 0, Vector2.mk 1 0, 0⟩
          else if j = 1 then some ⟨Vector2.mk 1.5 0, Vector2.mk 0 0, 1⟩ else none,
        false, 0⟩).1.balls 1).map BillBall.position = some (Vector2.mk 2.497 0) ∧
    ((0.994 : ℝ) ≠ 0 ∧ (2.497 : ℝ) ≠ 1.5) := by
  have hsep : Game.distance (Vector2.mk 1.5 0) (Vector2.mk 0 0) > 2 * Params.Ball.radius := by
    have h2 : ¬ Game.distance (Vector2.mk 1.5 0) (Vector2.mk 0 0) ≤ 2 * Params.Ball.radius := by
      rw [distance_le_iff _ _ _ (by norm_num [Params.Ball.radius])]
      norm_num [Params.Ball.radius]
    exact lt_of_not_le h2
  have hpockets : ∀ j : Fin 6, ¬ Game.distance (Vector2.mk 1.5 0)
      (Params.Table.pocketsPositions j) < Params.Table.pocketRadius := by
    intro j
    rw [distance_lt_iff _ _ _ (by norm_num [Params.Table.pocketRadius])]
    fin_cases j <;>
      simp [Params.Table.pocketsPositions, Params.Table.pocketRadius,
        Params.Table.width, Params.Table.height] <;>
      norm_num
  have h0 := ballStep_one_collision 1
    (fun j => if j = 0 then some ⟨Vector2.mk 0 0, Vector2.mk 1 0, 0⟩
      else if j = 1 then some ⟨Vector2.mk 1.5 0, Vector2.mk 0 0, 1⟩ else none) []
    ⟨Vector2.mk 0 0, Vector2.mk 1 0, 0⟩ ⟨Vector2.mk 1.5 0, Vector2.mk 0 0, 1⟩
    rfl rfl
    (by
      intro j
      rw [distance_lt_iff _ _ _ (by norm_num [Params.Table.pocketRadius])]
      fin_cases j <;>
        simp [BillBall.getNextPosition, Params.Table.pocketsPositions,
          Params.Table.pocketRadius, Params.Table.width, Params.Table.height] <;>
        norm_num)
    (by
      simp only [BillBall.getNextPosition]
      norm_num [Params.Ball.radius, Params.Table.width, Params.Table.height])
    (by
      rw [distance_le_iff _ _ _ (by norm_num [Params.Ball.radius])]
      norm_num [BillBall.getNextPosition, Params.Ball.radius])
    (by
      intro l hl
      fin_cases l <;> first | rfl | exact absurd hl (by decide))
  dsimp only at h0
  rw [frictionStep_one, collide_c10] at h0
  dsimp only at h0
  have h1 := ballStep_clean 1
    (fun j => if j = 0 then some ⟨Vector2.mk 0 0, Vector2.mk 0 0, 0⟩
      else if j = 1 then some ⟨Vector2.mk 1.5 0, Vector2.mk 0.997 0, 1⟩
      else if j = 0 then some ⟨Vector2.mk 0 0, Vector2.mk 1 0, 0⟩
      else if j = 1 then some ⟨Vector2.mk 1.5 0, Vector2.mk 0 0, 1⟩ else none) []
    1 ⟨Vector2.mk 1.5 0, Vector2.mk 0.997 0, 1⟩ rfl
    (by
      intro j
      rw [distance_lt_iff _ _ _ (by norm_num [Params.Table.pocketRadius])]
      fin_cases j <;>
        simp [BillBall.getNextPosition, Params.Table.pocketsPositions,
          Params.Table.pocketRadius, Params.Table.width, Params.Table.height] <;>
        norm_num)
    (by
      simp only [BillBall.getNextPosition]
      norm_num [Params.Ball.radius, Params.Table.width, Params.Table.height])
    (by
      intro l hl o ho
      fin_cases l
      · obtain rfl := Option.some.inj ho
        rw [distance_le_iff _ _ _ (by norm_num [Params.Ball.radius])]
        norm_num [BillBall.getNextPosition, Params.Ball.radius]
      · exact absurd rfl hl
      · exact Option.noConfusion ho
      · exact Option.noConfusion ho
      · exact Option.noConfusion ho
      · exact Option.noConfusion ho
      · exact Option.noConfusion ho)
  refine ⟨hsep, ⟨by norm_num [Params.Ball.radius, Params.Table.width],
      by norm_num [Params.Ball.radius, Params.Table.width],
      by norm_num [Params.Ball.radius, Params.Table.height],
      by norm_num [Params.Ball.radius, Params.Table.height]⟩,
    ⟨hpockets 0, hpockets 1, hpockets 2, hpockets 3, hpockets 4, hpockets 5⟩, ?_, ?_,
    by norm_num, by norm_num⟩
  all_goals
    show ((([(0 : Fin 7), 1, 2, 3, 4, 5, 6].foldl (Game.ballStep 1)
      ((fun j => if j = 0 then some ⟨Vector2.mk 0 0, Vector2.mk 1 0, 0⟩
        else if j = 1 then some ⟨Vector2.mk 1.5 0, Vector2.mk 0 0, 1⟩ else none : Game.Slots),
        [])).1 1).map _) = _
  all_goals
    rw [List.foldl_cons, h0, List.foldl_cons, h1,
      foldl_fixed_of_forall (Game.ballStep 1) [2, 3, 4, 5, 6] _
        (fun i hi => ballStep_none 1 _ i (by fin_cases hi <;> rfl))]
  · dsimp only
    rw [frictionStep_c10]
    rfl
  · show some ((⟨Vector2.mk 1.5 0, Vector2.mk 0.997 0, 1⟩ : BillBall).getNextPosition 1)
        = some (Vector2.mk 2.497 0)
    simp only [BillBall.getNextPosition, Option.some.injEq, Vector2.mk.injEq]
    norm_num


/-- C10 amended: when every live ball is exactly at rest, fully inside the
table, away from every pocket, and more than two radii away from every
other live ball, one `update` leaves the whole slot array unchanged — no
stationary ball drifts.  (The original per-ball claim fails when another
moving ball enters collision range during the same frame, see
`c10_counterexample`.) -/
theorem c10_stationary_table_fixed (dt : ℝ) (c : Bool) (pg : ℝ) (balls : Game.Slots)
    (hstat : ∀ k b, balls k = some b → b.speed = Vector2.mk 0 0)
    (hin : ∀ k b, balls k = some b →
      b.position.x + Params.Ball.radius ≤ 0.5 * Params.Table.width ∧
      b.position.x - Params.Ball.radius ≥ -0.5 * Params.Table.width ∧
      b.position.y + Params.Ball.radius ≤ 0.5 * Params.Table.height ∧
      b.position.y - Params.Ball.radius ≥ -0.5 * Params.Table.height)
    (hnp : ∀ k b, balls k = some b → ∀ j : Fin 6,
      ¬ Game.distance b.position (Params.Table.pocketsPositions j) <
        Params.Table.pocketRadius)
    (hsepa : ∀ k l b b', k ≠ l → balls k = some b → balls l = some b' →
      ¬ Game.distance b.position b'.position ≤ 2 * Params.Ball.radius) :
    (Game.update dt ⟨balls, c, pg⟩).1.balls = balls := by
  have hfix : [(0 : Fin 7), 1, 2, 3, 4, 5, 6].foldl (Game.ballStep dt) (balls, []) =
      (balls, []) := by
    refine foldl_fixed_of_forall _ _ _ fun i _ => ?_
    cases hbi : balls i with
    | none => exact ballStep_none dt _ i hbi
    | some b =>
      have hv := hstat i b hbi
      have hP : b.getNextPosition dt = b.position := by
        unfold BillBall.getNextPosition
        rw [hv]
        obtain ⟨⟨px, py⟩, sp, m⟩ := b
        dsimp only
        norm_num
      rw [ballStep_clean dt balls [] i b hbi
        (by simp only [hP]; exact hnp i b hbi)
        (by
          rw [hP]
          obtain ⟨h1, h2, h3, h4⟩ := hin i b hbi
          simp only [not_or]
          exact ⟨not_lt.2 h1, not_lt.2 h2, not_lt.2 h3, not_lt.2 h4⟩)
        (by
          simp only [hP]
          exact fun l hl o ho => hsepa i l b o (Ne.symm hl) hbi ho)]
      rw [show (fun j => if j = i then
          some ⟨b.getNextPosition dt, Game.frictionStep b.speed, b.gameMesh⟩
          else balls j) = balls from funext fun j => ?_]
      by_cases hj : j = i
      · rw [if_pos hj, hj, hbi, hP, hv, frictionStep_zero]
        obtain ⟨pos, sp, m⟩ := b
        dsimp only at hv ⊢
        rw [hv]
      · rw [if_neg hj]
  show ([(0 : Fin 7), 1, 2, 3, 4, 5, 6].foldl (Game.ballStep dt) (balls, [])).1 = balls
  rw [hfix]

/-- Witness for the amended C10: a lone resting ball at the table center
is untouched by an update. -/
theorem c10_stationary_table_fixed_witness :
    (Game.update 1 ⟨singleSlots ⟨Vector2.mk 0 0, Vector2.mk 0 0, 5⟩, false, 0⟩).1.balls =
      singleSlots ⟨Vector2.mk 0 0, Vector2.mk 0 0, 5⟩ := by
  have hone : ∀ k b, singleSlots ⟨Vector2.mk 0 0, Vector2.mk 0 0, 5⟩ k = some b →
      k = 0 ∧ b = ⟨Vector2.mk 0 0, Vector2.mk 0 0, 5⟩ := by
    intro k b hk
    by_cases h : k = 0
    · refine ⟨h, ?_⟩
      rw [h, singleSlots_zero] at hk
      exact (Option.some.inj hk).symm
    · rw [show singleSlots ⟨Vector2.mk 0 0, Vector2.mk 0 0, 5⟩ k = none from by
        simp [singleSlots, h]] at hk
      exact Option.noConfusion hk
  refine c10_stationary_table_fixed 1 false 0 _
    (fun k b hk => by rw [(hone k b hk).2])
    (fun k b hk => by
      rw [(hone k b hk).2]
      norm_num [Params.Ball.radius, Params.Table.width, Params.Table.height])
    (fun k b hk => by
      rw [(hone k b hk).2]
      intro j
      rw [distance_lt_iff _ _ _ (by norm_num [Params.Table.pocketRadius])]
      fin_cases j <;>
        simp [Params.Table.pocketsPositions, Params.Table.pocketRadius,
          Params.Table.width, Params.Table.height] <;>
        norm_num)
    (fun k l b b' hkl hk hl => by
      exact absurd ((hone k b hk).1.trans (hone l b' hl).1.symm) hkl)


/-- C5: for a ball with nonzero speed, the friction fragment of `update`
strictly shrinks the speed magnitude; the new speed is a nonnegative
rescaling of the old one, so the direction never flips sign; iterating it
reaches exactly zero within `ceil (speed / frictionDeceleration) + 1`
frames; a zero speed stays exactly zero; and an `update` on a ball that
matches no pocket and stays inside the walls (hence sees no collision in a
single-ball state) writes exactly this friction map to the speed. -/
theorem c5_friction_monotone_stops (v : Vector2) (hv : ¬(v.x = 0 ∧ v.y = 0)) :
    vecLen (Game.frictionStep v) < vecLen v ∧
    (∃ c, 0 ≤ c ∧ Game.frictionStep v = Vector2.mk (v.x * c) (v.y * c)) ∧
    (∀ n, Nat.ceil (vecLen v / Params.Physics.frictionDeceleration) + 1 ≤ n →
      Game.frictionStep^[n] v = Vector2.mk 0 0) ∧
    Game.frictionStep (Vector2.mk 0 0) = Vector2.mk 0 0 ∧
    (∀ (dt : ℝ) (cb : Bool) (pg : ℝ) (b : BillBall),
      (∀ j : Fin 6, ¬ Game.distance (b.getNextPosition dt)
        (Params.Table.pocketsPositions j) < Params.Table.pocketRadius) →
      ¬((b.getNextPosition dt).x + Params.Ball.radius > 0.5 * Params.Table.width ∨
        (b.getNextPosition dt).x - Params.Ball.radius < -0.5 * Params.Table.width ∨
        (b.getNextPosition dt).y + Params.Ball.radius > 0.5 * Params.Table.height ∨
        (b.getNextPosition dt).y - Params.Ball.radius < -0.5 * Params.Table.height) →
      (Game.update dt ⟨singleSlots b, cb, pg⟩).1.balls 0 =
        some ⟨b.getNextPosition dt, Game.frictionStep b.speed, b.gameMesh⟩) := by
  have hfd : (0 : ℝ) < Params.Physics.frictionDeceleration := by
    norm_num [Params.Physics.frictionDeceleration]
  refine ⟨?_, ?_, ?_, frictionStep_zero, ?update⟩
  case update =>
    intro dt cb pg b hnp hnb
    have hb := ballStep_clean dt (singleSlots b) [] 0 b (singleSlots_zero b) hnp hnb
      (fun l hl o ho => by simp [singleSlots, hl] at ho)
    rw [slot_write_zero] at hb
    rw [update_single dt cb pg _ _ hb, singleSlots_zero]
  · by_cases hsmall : v.x * v.x + v.y * v.y ≤
        Params.Physics.frictionDeceleration * Params.Physics.frictionDeceleration * 1.1
    · rw [frictionStep_snap v hv hsmall, vecLen_mk_zero]
      exact vecLen_pos v hv
    · push_neg at hsmall
      rw [vecLen_frictionStep_big v hsmall]
      linarith
  · by_cases hsmall : v.x * v.x + v.y * v.y ≤
        Params.Physics.frictionDeceleration * Params.Physics.frictionDeceleration * 1.1
    · exact ⟨0, le_rfl, by rw [frictionStep_snap v hv hsmall]; norm_num⟩
    · push_neg at hsmall
      have hL : 0 < vecLen v := vecLen_pos v hv
      refine ⟨1 - Params.Physics.frictionDeceleration / vecLen v, ?_,
        frictionStep_big v hsmall⟩
      rw [sub_nonneg, div_le_one hL]
      exact (frictionDeceleration_lt_vecLen v hsmall).le
  · intro n hn
    obtain ⟨m, rfl⟩ : ∃ m, n = m +
        (Nat.ceil (vecLen v / Params.Physics.frictionDeceleration) + 1) :=
      ⟨n - (Nat.ceil (vecLen v / Params.Physics.frictionDeceleration) + 1), by omega⟩
    rw [Function.iterate_add_apply,
      frictionStep_iter_zero _ v le_rfl]
    exact Function.iterate_fixed frictionStep_zero m

/-- Witness for C5 at the concrete speed (1, 0). -/
theorem c5_friction_monotone_stops_witness :
    (¬((1 : ℝ) = 0 ∧ (0 : ℝ) = 0)) ∧
      vecLen (Game.frictionStep (Vector2.mk 1 0)) < vecLen (Vector2.mk 1 0) :=
  ⟨by norm_num, (c5_friction_monotone_stops (Vector2.mk 1 0) (by norm_num)).1⟩

end
